import Mathlib

namespace NPM

/-!
Verification of the NPM accelerator-emulation stack (mock device, shared-memory
allocator, IPC emulator server, memory-hierarchy/DMA models, backend dispatcher)
against its natural-language specification.  Each C++ routine named in a claim
is embedded as an executable Lean definition; theorems below settle the claims.
-/

set_option maxHeartbeats 1000000

/-- Size in bytes of a C `float` (`sizeof(float)`). -/
def sizeofFloat : Nat := 4

/-! ## Tile-size derivation (`calculate_tile_size`, npm-emu-server.cpp) -/

/-- Embedding of the loop `int pot = 1; while (pot * 2 <= tile_size) pot *= 2;`
in `calculate_tile_size`.  The `0 < pot` conjunct exists only to make
termination evident; every call starts from `pot = 1`. -/
def potLoop (pot t : Nat) : Nat :=
  if h : 0 < pot ∧ pot * 2 ≤ t then potLoop (pot * 2) t else pot
termination_by t - pot
decreasing_by
  omega

/-- Embedding of `calculate_tile_size(size_t l1_size)` from npm-emu-server.cpp:
`elements = l1_size / 4; tile_elements = elements / 3;
tile_size = (int)sqrt((double)tile_elements); tile_size = max(32, tile_size);`
then the power-of-two loop.  The truncated double-precision square root is
embedded as `Nat.sqrt`, which agrees with it for all realistic L1 sizes
(`tile_elements` far below `2^40`). -/
def calculate_tile_size (l1_size : Nat) : Nat :=
  let elements := l1_size / sizeofFloat
  let tile_elements := elements / 3
  let tile_size := Nat.sqrt tile_elements
  potLoop 1 (max 32 tile_size)

/-- Tile side exactly as the specification words it: the largest power of two
that is at most `floor (sqrt (L1_bytes / 12))`, with a lower bound of `32`. -/
def spec_tile_size (l1_size : Nat) : Nat :=
  max 32 (2 ^ Nat.log2 (Nat.sqrt (l1_size / 12)))

/-! ## Shared-memory region and bump allocator (npm-shm.h) -/

/-- Modulus of `size_t` arithmetic on the modelled platform (64 bits). -/
def size_t_mod : Nat := 2 ^ 64

/-- Embedding of `struct npm_shm_region` with the fields the allocator uses
(`base` as an abstract address, `size`, `allocated`); `name`, `fd` and
`is_owner` play no role in any claim. -/
structure npm_shm_region where
  base : Nat
  size : Nat
  allocated : Nat
deriving Repr, DecidableEq

/-- Bitwise complement `~x` of a 64-bit `size_t` value `x < 2^64`. -/
def not64 (x : Nat) : Nat := size_t_mod - 1 - x

/-- Embedding of `npm_shm_alloc(region, size, alignment)` (npm-shm.h):
`if (size == 0) fail; if (alignment == 0) alignment = 64;
aligned_offset = (allocated + alignment - 1) & ~(alignment - 1);
new_allocated = aligned_offset + size;
if (new_allocated > region->size) fail;
region->allocated = new_allocated; return aligned_offset;`
`none` embeds the `(size_t)-1` failure value; `size_t` sums are reduced
mod `2^64`. -/
def npm_shm_alloc (region : npm_shm_region) (size alignment : Nat) :
    Option Nat × npm_shm_region :=
  if size = 0 then (none, region)
  else
    let al := if alignment = 0 then 64 else alignment
    let aligned_offset :=
      ((region.allocated + al - 1) % size_t_mod) &&& not64 ((al - 1) % size_t_mod)
    let new_allocated := (aligned_offset + size) % size_t_mod
    if new_allocated > region.size then (none, region)
    else (some aligned_offset, { region with allocated := new_allocated })

/-- Embedding of `npm_shm_get_ptr(region, offset)`: `NULL` when
`offset >= region->size`, otherwise `region->base + offset`. -/
def npm_shm_get_ptr (region : npm_shm_region) (offset : Nat) : Option Nat :=
  if offset ≥ region.size then none else some (region.base + offset)

/-- Rounding `x` up to the next multiple of `a` (the spec's `align_up`). -/
def align_up (x a : Nat) : Nat := (x + a - 1) / a * a

/-! ## Association-list embedding of `std::unordered_map` -/

/-- Embedding of `std::unordered_map<uint64_t, V>::find`: the first entry with
the given key (keys are unique by construction). -/
def mapFind {V : Type} (m : List (Nat × V)) (key : Nat) : Option V :=
  match m with
  | [] => none
  | (k, v) :: rest => if k = key then some v else mapFind rest key

/-- Embedding of `map.erase(key)`: removes the entry with the key (if any). -/
def mapErase {V : Type} (m : List (Nat × V)) (key : Nat) : List (Nat × V) :=
  match m with
  | [] => []
  | (k, v) :: rest => if k = key then rest else (k, v) :: mapErase rest key

/-- Embedding of `map[key] = v`: inserts or overwrites the entry. -/
def mapInsert {V : Type} (m : List (Nat × V)) (key : Nat) (v : V) :
    List (Nat × V) :=
  (key, v) :: mapErase m key

/-! ## Mock device (npm-device-mock.cpp)

The mock executes on host memory.  FP32 values are embedded as an abstract
carrier type `F` with explicit `zero`, `add` and `mul` operations, so that
every theorem about the arithmetic holds for IEEE-754 floats in particular
(no algebraic law of `F` is ever assumed).  Host memory is a function from
float-element addresses to `F`; byte offsets (which the C code applies to
`char *` and then reinterprets as `float *`, 4-byte aligned at every call
site) are therefore expressed in element units. -/

/-- `GGML_TYPE_F32` (ggml type tag 0). -/
def GGML_TYPE_F32 : Nat := 0

/-- Embedding of the mock's `struct npm_buffer_entry`: host pointer and
size. -/
structure npm_buffer_entry where
  ptr : Nat
  entry_size : Nat
deriving Repr, DecidableEq

/-- Embedding of `struct npm_device_mock_context` (the SKU/engine/L1/L2
constants set by `init` play no role in any claim). -/
structure npm_device_mock_context where
  buffers : List (Nat × npm_buffer_entry)
  next_handle : Nat
deriving Repr, DecidableEq

/-- Embedding of `npm_device_mock_register_buffer`. -/
def npm_device_mock_register_buffer (ctx : npm_device_mock_context)
    (ptr size : Nat) : (Int × Option Nat) × npm_device_mock_context :=
  if ptr = 0 ∨ size = 0 then ((-1, none), ctx)
  else
    let h := ctx.next_handle
    (((0 : Int), some h),
     { ctx with
         next_handle := (ctx.next_handle + 1) % size_t_mod,
         buffers := mapInsert ctx.buffers h ⟨ptr, size⟩ })

/-- Embedding of `npm_device_mock_unregister_buffer`. -/
def npm_device_mock_unregister_buffer (ctx : npm_device_mock_context)
    (handle : Nat) : npm_device_mock_context :=
  { ctx with buffers := mapErase ctx.buffers handle }

/-- Embedding of `npm_device_mock_update_buffer`: looks the handle up and, if
found, overwrites the entry's pointer and size with the arguments — with NO
check of the new size against the registered one — and returns 0. -/
def npm_device_mock_update_buffer (ctx : npm_device_mock_context)
    (handle ptr size : Nat) : Int × npm_device_mock_context :=
  match mapFind ctx.buffers handle with
  | none => (-1, ctx)
  | some _ =>
      (0, { ctx with buffers := mapInsert ctx.buffers handle ⟨ptr, size⟩ })

/-- Embedding of `npm_device_mock_resolve_handle`: `nullptr` for an
unregistered handle, otherwise `ptr + offset` — the offset is NOT checked
against the registered size. -/
def npm_device_mock_resolve_handle (ctx : npm_device_mock_context)
    (handle offset : Nat) : Option Nat :=
  match mapFind ctx.buffers handle with
  | none => none
  | some e => some (e.ptr + offset)

/-- Embedding of `struct npm_matmul_params`.  Dimensions and leading
dimensions are `int64_t` in C; they are modelled as naturals because every
loop iteration uses non-negative indices and non-positive dimensions make the
loops empty, exactly like dimension 0. -/
structure npm_matmul_params where
  a_handle : Nat
  b_handle : Nat
  c_handle : Nat
  a_offset : Nat
  b_offset : Nat
  c_offset : Nat
  M : Nat
  N : Nat
  K : Nat
  lda : Nat
  ldb : Nat
  ldc : Nat
  type_a : Nat
  type_b : Nat
  type_c : Nat
deriving Repr, DecidableEq

/-- The inner `for (k) sum += A[m*lda+k] * B[n*ldb+k]` loop of the mock
matmul, reading the CURRENT memory. -/
def gemmRowSum {F : Type} (zero : F) (add mul : F → F → F)
    (mem : Nat → F) (baseA baseB lda ldb K m n : Nat) : F :=
  (List.range K).foldl
    (fun s k => add s (mul (mem (baseA + m * lda + k)) (mem (baseB + n * ldb + k))))
    zero

/-- One iteration of the mock matmul's (m, n) loop body: compute the sum for
this (m, n) from current memory, then store it at `C[m*ldc + n]`. -/
def gemmStep {F : Type} (zero : F) (add mul : F → F → F)
    (baseA baseB baseC lda ldb ldc K : Nat)
    (mem : Nat → F) (mn : Nat × Nat) : Nat → F :=
  fun addr =>
    if addr = baseC + mn.1 * ldc + mn.2 then
      gemmRowSum zero add mul mem baseA baseB lda ldb K mn.1 mn.2
    else mem addr

/-- Row-major traversal order of the two nested loops `for m { for n }`. -/
def rowMajorPairs (M N : Nat) : List (Nat × Nat) :=
  (List.range M).flatMap (fun m => (List.range N).map (fun n => (m, n)))

/-- The triple loop of `npm_device_mock_matmul`, flattened over the row-major
(m, n) traversal (the same sequence of writes as the two nested C loops). -/
def gemmLoops {F : Type} (zero : F) (add mul : F → F → F)
    (baseA baseB baseC lda ldb ldc M N K : Nat) (mem : Nat → F) : Nat → F :=
  (rowMajorPairs M N).foldl (gemmStep zero add mul baseA baseB baseC lda ldb ldc K) mem

/-- Embedding of `npm_device_mock_matmul`: type check (FP32 on all three
operands), handle resolution, then the naive triple loop; returns the status
and the updated host memory. -/
def npm_device_mock_matmul {F : Type} (zero : F) (add mul : F → F → F)
    (ctx : npm_device_mock_context) (mem : Nat → F)
    (p : npm_matmul_params) : Int × (Nat → F) :=
  if p.type_a ≠ GGML_TYPE_F32 ∨ p.type_b ≠ GGML_TYPE_F32 ∨ p.type_c ≠ GGML_TYPE_F32 then
    (-1, mem)
  else
    match npm_device_mock_resolve_handle ctx p.a_handle p.a_offset,
          npm_device_mock_resolve_handle ctx p.b_handle p.b_offset,
          npm_device_mock_resolve_handle ctx p.c_handle p.c_offset with
    | some baseA, some baseB, some baseC =>
        (0, gemmLoops zero add mul baseA baseB baseC p.lda p.ldb p.ldc p.M p.N p.K mem)
    | _, _, _ => (-2, mem)

/-- The reference naive GEMM, written from the specification sentence
`C[m,n] = Σₖ A[m·lda+k] · B[n·ldb+k]` over the ORIGINAL memory, summed in
increasing k order from `zero` (the same order the spec's reference
implementation uses). -/
def reference_gemm {F : Type} (zero : F) (add mul : F → F → F)
    (mem : Nat → F) (baseA baseB lda ldb K m n : Nat) : F :=
  (List.range K).foldl
    (fun s k => add s (mul (mem (baseA + m * lda + k)) (mem (baseB + n * ldb + k))))
    zero

/-- Addresses the mock matmul reads: the A sub-matrix and B sub-matrix
elements actually touched by the loops. -/
def readsAB (baseA baseB lda ldb M N K a : Nat) : Prop :=
  (∃ m k, m < M ∧ k < K ∧ a = baseA + m * lda + k) ∨
  (∃ n k, n < N ∧ k < K ∧ a = baseB + n * ldb + k)

/-- Concrete mock context for the spec's Scenario A: buffers A (handle 1, at
address 100, 24 bytes), B (handle 2, at 200, 48 bytes), C (handle 3, at 300,
32 bytes). -/
def mockCtxA : npm_device_mock_context :=
  { buffers := [(1, ⟨100, 24⟩), (2, ⟨200, 48⟩), (3, ⟨300, 32⟩)],
    next_handle := 4 }

/-- Scenario A host memory: A = [[1,2,3],[4,5,6]] at 100, B = [[1,0,0],
[0,1,0],[0,0,1],[1,1,1]] at 200, C zeroed at 300. -/
def memA : Nat → Int := fun a =>
  if a < 100 then 0
  else if a < 200 then [1, 2, 3, 4, 5, 6].getD (a - 100) 0
  else if a < 300 then [1, 0, 0, 0, 1, 0, 0, 0, 1, 1, 1, 1].getD (a - 200) 0
  else 0

/-- Scenario A matmul parameters: M=2, N=4, K=3, lda=ldb=3, ldc=4, FP32. -/
def paramsA : npm_matmul_params :=
  ⟨1, 2, 3, 0, 0, 0, 2, 4, 3, 3, 3, 4, 0, 0, 0⟩

/-! ## IPC-client device (npm-device-emulator.cpp): update_buffer -/

/-- Embedding of the client-side `buffer_info` entry `{handle, shm_offset,
size}`; entries are keyed in `ctx->buffers` by the host pointer. -/
structure npm_emu_client_buffer_info where
  handle : Nat
  shm_offset : Nat
  buf_size : Nat
deriving Repr, DecidableEq

/-- Embedding of `struct npm_device_emu_context`: the SHM region and the
host-pointer-keyed buffer registry (socket, seq_id and device-info fields
play no role in the claims). -/
structure npm_device_emu_context where
  shm : npm_shm_region
  buffers : List (Nat × npm_emu_client_buffer_info)
deriving Repr, DecidableEq

/-- The linear search `for (entry : ctx->buffers) if (entry.second.handle ==
handle)` used by `update_buffer`. -/
def findByHandle (m : List (Nat × npm_emu_client_buffer_info)) (handle : Nat) :
    Option npm_emu_client_buffer_info :=
  match m with
  | [] => none
  | (_, bi) :: rest => if bi.handle = handle then some bi else findByHandle rest handle

/-- Embedding of `npm_device_emu_update_buffer(dev, handle, ptr, size)`:
find the registration by handle (`-1` if absent), reject growth beyond the
registered size (`-2`), reject an out-of-range SHM offset (`-3`), else
`memcpy(shm_ptr, ptr, size)`.  Host bytes and SHM bytes live in the one
process address space `mem`; `memcpy` reads the pre-copy source bytes (legal
calls never overlap).  Returns status, (unchanged) context and memory. -/
def npm_device_emu_update_buffer {F : Type} (ctx : npm_device_emu_context)
    (mem : Nat → F) (handle ptr size : Nat) :
    Int × npm_device_emu_context × (Nat → F) :=
  match findByHandle ctx.buffers handle with
  | none => (-1, ctx, mem)
  | some bi =>
    if size > bi.buf_size then (-2, ctx, mem)
    else
      match npm_shm_get_ptr ctx.shm bi.shm_offset with
      | none => (-3, ctx, mem)
      | some shm_ptr =>
          (0, ctx,
           fun a => if shm_ptr ≤ a ∧ a < shm_ptr + size
                    then mem (ptr + (a - shm_ptr)) else mem a)

/-! ## Backend dispatcher predicate (ggml-npm.cpp: supports_op) -/

/-- The element types of ggml's `enum ggml_type`.  The enum itself lives in
ggml core, outside the staged sources, so its member list is reproduced
here (modelled from the spec's tensor-engine interface): every type that
the switches in `ggml-npm.cpp` name explicitly, plus the remaining members
— notably the quantised types Q8_K, IQ1_M, TQ1_0 and TQ2_0 — which those
switches only reach through their `default:` arms. -/
inductive ggml_type where
  | f32 | f16 | bf16 | f64
  | i8 | i16 | i32 | i64
  | q4_0 | q4_1 | q5_0 | q5_1 | q8_0 | q8_1
  | q2_k | q3_k | q4_k | q5_k | q6_k | q8_k
  | iq2_xxs | iq2_xs | iq2_s | iq3_xxs | iq3_s | iq1_s | iq1_m
  | iq4_nl | iq4_xs
  | tq1_0 | tq2_0
deriving Repr, DecidableEq

/-- Embedding of the file-local `ggml_type_is_quantized` (ggml-npm.cpp
lines 1200-1214): `false` for the eight plain types its `case` labels list
(F32, F16, BF16, I8, I16, I32, I64, F64) and `default: return true` for
every other member of the enum — including Q8_K, IQ1_M, TQ1_0, TQ2_0. -/
def ggml_type_is_quantized : ggml_type → Bool
  | .f32 | .f16 | .bf16 | .i8 | .i16 | .i32 | .i64 | .f64 => false
  | _ => true

/-- Modelled from the spec: ggml core's type-traits table registers a
dequantise-to-FP32 (`to_float`) function for every quantised weight type
("weights are FP32 OR a quantised type with a registered
dequantise-to-FP32 function") — Q8_K included; F32 itself needs and has
none, and for the non-quantised types the value is never consulted by
`supports_op`. -/
def ggml_to_float_available : ggml_type → Bool
  | .f32 => false
  | _ => true

/-- The fields of a MUL_MAT graph node that `supports_op` reads: weights
src0, activations src1, their contiguity (an external geometric predicate of
the tensor engine, carried as a field), and the dimensions `ne00` (= K,
weight columns), `ne10`, `ne0`, `ne1`. -/
structure npm_mul_mat_node where
  src0_type : ggml_type
  src1_type : ggml_type
  src0_contiguous : Bool
  src1_contiguous : Bool
  ne00 : Nat
  ne10 : Nat
  ne0 : Nat
  ne1 : Nat
deriving Repr, DecidableEq

/-- Embedding of the `GGML_OP_MUL_MAT` branch of
`ggml_backend_npm_device_supports_op` (ggml-npm.cpp), with `min_batch = 1`
exactly as in the source. -/
def supports_op_mul_mat (t : npm_mul_mat_node) : Bool :=
  let min_batch := 1
  let contiguous_ok := t.src0_contiguous && t.src1_contiguous
  let src0_type_ok :=
    (t.src0_type == ggml_type.f32) ||
      (ggml_type_is_quantized t.src0_type && ggml_to_float_available t.src0_type)
  let src1_type_ok := t.src1_type == ggml_type.f32
  let type_ok := src0_type_ok && src1_type_ok
  let alignment_ok :=
    if ggml_type_is_quantized t.src0_type then
      match t.src0_type with
      | .q2_k | .q3_k | .q4_k | .q5_k | .q6_k => t.ne00 % 256 == 0
      | .q4_0 | .q4_1 | .q5_0 | .q5_1 | .q8_0 | .q8_1 => t.ne00 % 32 == 0
      | .iq2_xxs | .iq2_xs | .iq2_s | .iq3_xxs | .iq3_s | .iq1_s
      | .iq4_nl | .iq4_xs => t.ne00 % 256 == 0
      | .f16 | .bf16 => true
      | _ => true
    else true
  let size_ok := decide (min_batch ≤ t.ne0) && decide (min_batch ≤ t.ne1) &&
    decide (min_batch ≤ t.ne10)
  contiguous_ok && type_ok && size_ok && alignment_ok

/-- The block sizes the spec names: 256 for k-quants (Q8_K included: its
super-block is 256 elements) and i-quants, 32 for standard quants, 256 for
the ternary TQ types (also 256-element blocks), 1 (no constraint)
otherwise. -/
def spec_block_size : ggml_type → Nat
  | .q2_k | .q3_k | .q4_k | .q5_k | .q6_k | .q8_k => 256
  | .q4_0 | .q4_1 | .q5_0 | .q5_1 | .q8_0 | .q8_1 => 32
  | .iq2_xxs | .iq2_xs | .iq2_s | .iq3_xxs | .iq3_s | .iq1_s | .iq1_m
  | .iq4_nl | .iq4_xs => 256
  | .tq1_0 | .tq2_0 => 256
  | _ => 1

/-! ## Memory-hierarchy model (npm-memory-model.h / npm-memory-model.cpp) -/

/-- `enum npm_mem_region`. -/
inductive npm_mem_region where
  | ddr | l2 | l1
deriving Repr, DecidableEq

/-- Embedding of `struct npm_mem_block`.  The staged bytes themselves live in
the tier's `storage` array; no quantity any claim mentions depends on those
byte values, so only the tracked metadata is modelled. -/
structure npm_mem_block where
  handle : Nat
  offset : Nat
  size : Nat
  location : npm_mem_region
  local_offset : Nat
  last_access : Nat
  dirty : Bool
deriving Repr, DecidableEq

/-- Embedding of the common shape of `npm_l1_model` and `npm_l2_model`:
capacity, bump watermark `used`, and the live block list. -/
structure npm_tier_model where
  capacity : Nat
  used : Nat
  blocks : List npm_mem_block
deriving Repr, DecidableEq

/-- `can_fit(size)`: `used + size <= capacity`. -/
def npm_tier_model.can_fit (t : npm_tier_model) (size : Nat) : Bool :=
  decide (t.used + size ≤ t.capacity)

/-- Sum of the live blocks' sizes in a tier (the spec's
`sum_of_sizes(live_blocks)`). -/
def sumSizes (blocks : List npm_mem_block) : Nat :=
  (blocks.map (fun b => b.size)).sum

/-- `std::min_element` over `last_access` followed by `erase` of that
iterator, on a nonempty list `b :: bs`: returns the FIRST block minimising
`last_access` (min_element keeps the current candidate on ties) and the list
with exactly that block removed. -/
def extractLRU (b : npm_mem_block) (bs : List npm_mem_block) :
    npm_mem_block × List npm_mem_block :=
  match bs with
  | [] => (b, [])
  | x :: xs =>
    if (extractLRU x xs).1.last_access < b.last_access then
      ((extractLRU x xs).1, b :: (extractLRU x xs).2)
    else (b, x :: xs)

theorem extractLRU_perm (b : npm_mem_block) (bs : List npm_mem_block) :
    ((extractLRU b bs).1 :: (extractLRU b bs).2).Perm (b :: bs) := by
  induction bs generalizing b with
  | nil => exact List.Perm.refl _
  | cons x xs ih =>
    unfold extractLRU
    by_cases hc : (extractLRU x xs).1.last_access < b.last_access
    · simp only [if_pos hc]
      exact List.Perm.trans
        (List.Perm.swap b (extractLRU x xs).1 (extractLRU x xs).2)
        (List.Perm.cons b (ih x))
    · simp only [if_neg hc]
      exact List.Perm.refl _

theorem extractLRU_len (b : npm_mem_block) (bs : List npm_mem_block) :
    (extractLRU b bs).2.length = bs.length := by
  have := (extractLRU_perm b bs).length_eq
  simpa using this

/-- Embedding of the eviction loop shared verbatim by `evict_lru_l1` and
`evict_lru_l2`: while the tier is nonempty and the block does not fit, erase
the least-recently-used block and release its bytes. -/
def evict_lru_tier (t : npm_tier_model) (needed : Nat) : npm_tier_model :=
  match hb : t.blocks with
  | [] => t
  | b :: bs =>
    if t.used + needed ≤ t.capacity then t
    else
      evict_lru_tier
        ⟨t.capacity, t.used - (extractLRU b bs).1.size, (extractLRU b bs).2⟩ needed
termination_by t.blocks.length
decreasing_by
  simp only [hb, List.length_cons, extractLRU_len]
  omega

/-- Embedding of `allocate_l1` / `allocate_l2`: bump allocation inside the
tier storage, with no capacity check. -/
def allocate_tier (t : npm_tier_model) (size : Nat) : Nat × npm_tier_model :=
  (t.used, { t with used := t.used + size })

/-- Embedding of `find_block_in_l1` / `find_block_in_l2`: the first block
with the given (handle, offset) identity. -/
def findBlock (blocks : List npm_mem_block) (handle offset : Nat) :
    Option npm_mem_block :=
  match blocks with
  | [] => none
  | b :: bs =>
    if b.handle = handle ∧ b.offset = offset then some b
    else findBlock bs handle offset

/-- In-place update `existing->last_access = ++access_counter` on the block
`find_block_*` located. -/
def bumpFirst (blocks : List npm_mem_block) (handle offset stamp : Nat) :
    List npm_mem_block :=
  match blocks with
  | [] => []
  | b :: bs =>
    if b.handle = handle ∧ b.offset = offset then
      { b with last_access := stamp } :: bs
    else b :: bumpFirst bs handle offset stamp

/-- In-place update of the `dirty` flag on the block `find_block_*`
located. -/
def setDirty (blocks : List npm_mem_block) (handle offset : Nat) (d : Bool) :
    List npm_mem_block :=
  match blocks with
  | [] => []
  | b :: bs =>
    if b.handle = handle ∧ b.offset = offset then { b with dirty := d } :: bs
    else b :: setDirty bs handle offset d

/-- Embedding of `class npm_memory_hierarchy`'s state. -/
structure npm_memory_hierarchy where
  num_engines : Nat
  l1_size_per_engine : Nat
  l2_size : Nat
  l1_models : List npm_tier_model
  l2_model : npm_tier_model
  access_counter : Nat
  l1_hits : Nat
  l2_hits : Nat
  l1_misses : Nat
  l2_misses : Nat
  total_bytes_moved : Nat
deriving Repr, DecidableEq

/-- The `npm_memory_hierarchy` constructor: one empty L1 per engine and an
empty shared L2. -/
def mkHierarchy (num_engines l1_size l2_size : Nat) : npm_memory_hierarchy :=
  ⟨num_engines, l1_size, l2_size,
   List.replicate num_engines ⟨l1_size, 0, []⟩,
   ⟨l2_size, 0, []⟩, 0, 0, 0, 0, 0, 0⟩

/-- Embedding of `stage_to_l2(handle, offset, size, ddr_ptr)`: hit bumps the
block's `last_access`; miss evicts until the block fits, bump-allocates,
copies (`total_bytes_moved += size`) and appends the fresh block. -/
def stage_to_l2 (h : npm_memory_hierarchy) (handle offset size : Nat) :
    npm_memory_hierarchy :=
  match findBlock h.l2_model.blocks handle offset with
  | some _ =>
    { h with
        l2_hits := h.l2_hits + 1,
        access_counter := h.access_counter + 1,
        l2_model :=
          { h.l2_model with
              blocks := bumpFirst h.l2_model.blocks handle offset (h.access_counter + 1) } }
  | none =>
    let tier := if h.l2_model.can_fit size then h.l2_model
                else evict_lru_tier h.l2_model size
    let r := allocate_tier tier size
    let block : npm_mem_block :=
      ⟨handle, offset, size, .l2, r.1, h.access_counter + 1, false⟩
    { h with
        l2_misses := h.l2_misses + 1,
        total_bytes_moved := h.total_bytes_moved + size,
        access_counter := h.access_counter + 1,
        l2_model := { r.2 with blocks := r.2.blocks ++ [block] } }

/-- Embedding of `stage_to_l1(engine_id, handle, offset, size)`.  A negative
or out-of-range engine id returns with no state change; an L1 miss whose
data is absent from L2 counts the miss and returns null without staging.
(`engine_id` is an `int` in C; negative values are rejected exactly like
`engine_id >= num_engines` and are outside the `Nat` model.) -/
def stage_to_l1 (h : npm_memory_hierarchy) (engine_id handle offset size : Nat) :
    npm_memory_hierarchy :=
  if engine_id ≥ h.num_engines then h
  else
    match h.l1_models[engine_id]? with
    | none => h
    | some l1 =>
      match findBlock l1.blocks handle offset with
      | some _ =>
        { h with
            l1_hits := h.l1_hits + 1,
            access_counter := h.access_counter + 1,
            l1_models := h.l1_models.set engine_id
              { l1 with blocks := bumpFirst l1.blocks handle offset (h.access_counter + 1) } }
      | none =>
        match findBlock h.l2_model.blocks handle offset with
        | none => { h with l1_misses := h.l1_misses + 1 }
        | some _ =>
          let tier := if l1.can_fit size then l1 else evict_lru_tier l1 size
          let r := allocate_tier tier size
          let block : npm_mem_block :=
            ⟨handle, offset, size, .l1, r.1, h.access_counter + 1, false⟩
          { h with
              l1_misses := h.l1_misses + 1,
              total_bytes_moved := h.total_bytes_moved + size,
              access_counter := h.access_counter + 1,
              l1_models := h.l1_models.set engine_id
                { r.2 with blocks := r.2.blocks ++ [block] } }

/-- Embedding of `writeback_l1_to_l2(engine_id, handle, offset)`: if the L1
block exists and is dirty and a matching L2 block exists, copy the bytes
(`total_bytes_moved += size`), clear the L1 dirty bit and set the L2 one. -/
def writeback_l1_to_l2 (h : npm_memory_hierarchy) (engine_id handle offset : Nat) :
    npm_memory_hierarchy :=
  if engine_id ≥ h.num_engines then h
  else
    match h.l1_models[engine_id]? with
    | none => h
    | some l1 =>
      match findBlock l1.blocks handle offset with
      | none => h
      | some lb =>
        if lb.dirty = false then h
        else
          match findBlock h.l2_model.blocks handle offset with
          | none => h
          | some _ =>
            { h with
                total_bytes_moved := h.total_bytes_moved + lb.size,
                l1_models := h.l1_models.set engine_id
                  { l1 with blocks := setDirty l1.blocks handle offset false },
                l2_model :=
                  { h.l2_model with
                      blocks := setDirty h.l2_model.blocks handle offset true } }

/-- Embedding of `writeback_l2_to_ddr(handle, offset, ddr_ptr)`. -/
def writeback_l2_to_ddr (h : npm_memory_hierarchy) (handle offset : Nat) :
    npm_memory_hierarchy :=
  match findBlock h.l2_model.blocks handle offset with
  | none => h
  | some b =>
    if b.dirty = false then h
    else
      { h with
          total_bytes_moved := h.total_bytes_moved + b.size,
          l2_model :=
            { h.l2_model with
                blocks := setDirty h.l2_model.blocks handle offset false } }

/-- Embedding of `mark_dirty(engine_id, handle, offset)`. -/
def mark_dirty (h : npm_memory_hierarchy) (engine_id handle offset : Nat) :
    npm_memory_hierarchy :=
  if engine_id ≥ h.num_engines then h
  else
    match h.l1_models[engine_id]? with
    | none => h
    | some l1 =>
      match findBlock l1.blocks handle offset with
      | none => h
      | some _ =>
        { h with
            l1_models := h.l1_models.set engine_id
              { l1 with blocks := setDirty l1.blocks handle offset true } }

/-- Phase 1 of `flush_all` for one engine: iterate the engine's block list
and write back every dirty block (the writeback only flips dirty flags, so
iterating the entry snapshot equals iterating the live list). -/
def flush_l1_phase (h : npm_memory_hierarchy) (engine_id : Nat) :
    npm_memory_hierarchy :=
  match h.l1_models[engine_id]? with
  | none => h
  | some l1 =>
    l1.blocks.foldl
      (fun acc b =>
        if b.dirty then writeback_l1_to_l2 acc engine_id b.handle b.offset
        else acc) h

/-- Embedding of `flush_all(ddr_base)`: write back every dirty L1 block to
L2, then copy every dirty L2 block to DDR and clear its flag. -/
def flush_all (h : npm_memory_hierarchy) : npm_memory_hierarchy :=
  let h1 := (List.range h.num_engines).foldl flush_l1_phase h
  let dirtyBytes := sumSizes (h1.l2_model.blocks.filter (fun b => b.dirty))
  { h1 with
      total_bytes_moved := h1.total_bytes_moved + dirtyBytes,
      l2_model :=
        { h1.l2_model with
            blocks := h1.l2_model.blocks.map (fun b => { b with dirty := false }) } }

/-- Embedding of `reset()`. -/
def hier_reset (h : npm_memory_hierarchy) : npm_memory_hierarchy :=
  { h with
      l1_models := h.l1_models.map (fun l1 => { l1 with used := 0, blocks := [] }),
      l2_model := { h.l2_model with used := 0, blocks := [] },
      access_counter := 0, l1_hits := 0, l2_hits := 0,
      l1_misses := 0, l2_misses := 0, total_bytes_moved := 0 }

/-- The memory-hierarchy operations a client of the model can invoke. -/
inductive npm_hier_op where
  | stage_l2 (handle offset size : Nat)
  | stage_l1 (engine handle offset size : Nat)
  | writeback_l1 (engine handle offset : Nat)
  | writeback_l2 (handle offset : Nat)
  | mark (engine handle offset : Nat)
  | flush
  | reset
deriving Repr, DecidableEq

/-- One operation applied to the hierarchy. -/
def hier_apply (h : npm_memory_hierarchy) : npm_hier_op → npm_memory_hierarchy
  | .stage_l2 handle offset size => stage_to_l2 h handle offset size
  | .stage_l1 engine handle offset size => stage_to_l1 h engine handle offset size
  | .writeback_l1 engine handle offset => writeback_l1_to_l2 h engine handle offset
  | .writeback_l2 handle offset => writeback_l2_to_ddr h handle offset
  | .mark engine handle offset => mark_dirty h engine handle offset
  | .flush => flush_all h
  | .reset => hier_reset h

/-- A sequence of operations applied in order. -/
def hier_exec (h : npm_memory_hierarchy) (ops : List npm_hier_op) :
    npm_memory_hierarchy :=
  ops.foldl hier_apply h

/-! ## Tier-occupancy invariant (claim C9) -/

/-- A tier is consistent: the watermark equals the total size of the live
blocks and stays within the capacity. -/
def tierInv (t : npm_tier_model) : Prop :=
  t.used = sumSizes t.blocks ∧ t.used ≤ t.capacity

/-- Every tier of the hierarchy is consistent. -/
def hierInv (h : npm_memory_hierarchy) : Prop :=
  (∀ t ∈ h.l1_models, tierInv t) ∧ tierInv h.l2_model

/-- Size discipline for one operation: a staged block must not exceed the
target tier's capacity (`l1caps`/`l2cap` are the constructor-time
capacities). -/
def opSizeOk (l1caps : List Nat) (l2cap : Nat) : npm_hier_op → Prop
  | .stage_l2 _ _ size => size ≤ l2cap
  | .stage_l1 engine _ _ size => ∀ c, l1caps[engine]? = some c → size ≤ c
  | _ => True

/-- The hierarchy's tier capacities agree with the constructor values. -/
def capsOk (h : npm_memory_hierarchy) (l1caps : List Nat) (l2cap : Nat) : Prop :=
  (∀ e : Nat, (h.l1_models[e]?).map (fun t => t.capacity) = l1caps[e]?) ∧
  h.l2_model.capacity = l2cap

/-! ## SKU table (npm-types.h) -/

/-- `enum npm_sku`. -/
inductive npm_sku where
  | npm4k | npm8k | npm16k | npm32k | npm64k | mock | emulator
deriving Repr, DecidableEq

/-- `struct npm_sku_config`. -/
structure npm_sku_config where
  sku : npm_sku
  num_engines : Nat
  l1_size : Nat
  l2_size_default : Nat
  l2_size_min : Nat
  l2_size_max : Nat
  int4_macs : Nat
  int8_macs : Nat
  fp16_macs : Nat
deriving Repr, DecidableEq

/-- `NPM_SKU_CONFIGS` (npm-types.h). -/
def NPM_SKU_CONFIGS : List npm_sku_config :=
  [⟨.npm4k, 1, 1024 * 1024, 8 * 1024 * 1024, 1024 * 1024, 32 * 1024 * 1024, 16000, 4000, 2000⟩,
   ⟨.npm8k, 1, 1024 * 1024, 8 * 1024 * 1024, 1024 * 1024, 32 * 1024 * 1024, 32000, 8000, 4000⟩,
   ⟨.npm16k, 2, 1024 * 1024, 8 * 1024 * 1024, 1024 * 1024, 32 * 1024 * 1024, 64000, 16000, 8000⟩,
   ⟨.npm32k, 4, 1024 * 1024, 8 * 1024 * 1024, 1024 * 1024, 32 * 1024 * 1024, 128000, 32000, 16000⟩,
   ⟨.npm64k, 8, 1024 * 1024, 8 * 1024 * 1024, 1024 * 1024, 32 * 1024 * 1024, 256000, 64000, 32000⟩,
   ⟨.mock, 1, 1024 * 1024, 8 * 1024 * 1024, 1024 * 1024, 32 * 1024 * 1024, 0, 0, 0⟩,
   ⟨.emulator, 1, 1024 * 1024, 8 * 1024 * 1024, 1024 * 1024, 32 * 1024 * 1024, 0, 0, 0⟩]

/-- `npm_get_sku_config`: linear scan for the entry with the given SKU. -/
def npm_get_sku_config (sku : npm_sku) : Option npm_sku_config :=
  NPM_SKU_CONFIGS.find? (fun c => c.sku == sku)

/-! ## DMA model (npm-dma-model.h / .cpp) -/

/-- `enum npm_dma_type`. -/
inductive npm_dma_type where
  | ddr_to_l2 | l2_to_ddr | l2_to_l1 | l1_to_l2
deriving Repr, DecidableEq

/-- The mutable counters of `class npm_dma_model`. -/
structure npm_dma_model_state where
  current_cycle : Nat
  total_bytes : Nat
  total_transfer_cycles : Nat
  ddr_l2_bytes : Nat
  l2_l1_bytes : Nat
deriving Repr, DecidableEq

/-- Embedding of `calculate_cycles(type, bytes)`.  The bandwidth selection
and `ceil(bytes / bytes_per_cycle)` are double-precision arithmetic on the
configured bandwidths; they are abstracted as the parameter `rawCycles`,
while the source's final clamp `return (cycles > 0) ? cycles : 1` is kept
verbatim — it alone guarantees every transfer costs at least one cycle. -/
def calculate_cycles (rawCycles : npm_dma_type → Nat → Nat)
    (t : npm_dma_type) (bytes : Nat) : Nat :=
  let cycles := rawCycles t bytes
  if cycles > 0 then cycles else 1

/-- Embedding of `npm_dma_model::transfer(type, bytes, engine_id)`. -/
def dma_transfer (rawCycles : npm_dma_type → Nat → Nat)
    (d : npm_dma_model_state) (t : npm_dma_type) (bytes : Nat) :
    npm_dma_model_state :=
  let cycles := calculate_cycles rawCycles t bytes
  { current_cycle := d.current_cycle + cycles,
    total_bytes := d.total_bytes + bytes,
    total_transfer_cycles := d.total_transfer_cycles + cycles,
    ddr_l2_bytes :=
      d.ddr_l2_bytes + (if t = .ddr_to_l2 ∨ t = .l2_to_ddr then bytes else 0),
    l2_l1_bytes :=
      d.l2_l1_bytes + (if t = .l2_to_l1 ∨ t = .l1_to_l2 then bytes else 0) }

/-- Embedding of `advance_cycles(cycles)`. -/
def advance_cycles (d : npm_dma_model_state) (cycles : Nat) :
    npm_dma_model_state :=
  { d with current_cycle := d.current_cycle + cycles }

/-- Embedding of `reset_stats()`. -/
def dma_reset_stats (d : npm_dma_model_state) : npm_dma_model_state :=
  { d with current_cycle := 0, total_bytes := 0, total_transfer_cycles := 0,
           ddr_l2_bytes := 0, l2_l1_bytes := 0 }

/-! ## Emulator server (npm-emu-server.h / .cpp) -/

/-- Protocol constants (npm-emu-protocol.h). -/
def NPM_EMU_MAGIC : Nat := 0x454D504E

/-- Protocol major version. -/
def NPM_EMU_VERSION_MAJOR : Nat := 1

/-- Status codes (`enum npm_emu_status`). -/
def NPM_EMU_STATUS_OK : Nat := 0

/-- `NPM_EMU_STATUS_ERROR`. -/
def NPM_EMU_STATUS_ERROR : Nat := 1

/-- `NPM_EMU_STATUS_INVALID_HANDLE`. -/
def NPM_EMU_STATUS_INVALID_HANDLE : Nat := 3

/-- Embedding of `npm_emu_header_validate`: `-1` for a magic mismatch, `-2`
for a major-version mismatch, else 0. -/
def npm_emu_header_validate (magic version_major : Nat) : Int :=
  if magic ≠ NPM_EMU_MAGIC then -1
  else if version_major ≠ NPM_EMU_VERSION_MAJOR then -2
  else 0

/-- Embedding of `struct npm_emu_buffer`. -/
structure npm_emu_buffer where
  shm_offset : Nat
  size : Nat
  flags : Nat
deriving Repr, DecidableEq

/-- Embedding of `struct npm_emu_server`'s mutable state.  The mapped SHM
base address is an abstract `Nat` with 0 embedding the null pointer; socket
descriptors and the trace context carry no claim-relevant state. -/
structure npm_emu_server_state where
  sku : npm_sku
  tiling_enabled : Bool
  timing_enabled : Bool
  shm_base : Nat
  shm_size : Nat
  buffers : List (Nat × npm_emu_buffer)
  next_handle : Nat
  next_fence_id : Nat
  num_engines : Nat
  l1_size : Nat
  l2_size : Nat
  total_matmul_ops : Nat
  mem_hierarchy : npm_memory_hierarchy
  dma_model : npm_dma_model_state
deriving Repr, DecidableEq

/-- Embedding of the server's `resolve_handle(server, handle, offset)`:
`nullptr` for an unregistered handle or an offset at or past the registered
size, else a pointer into the buffer's SHM slot. -/
def resolve_handle (s : npm_emu_server_state) (handle offset : Nat) :
    Option Nat :=
  match mapFind s.buffers handle with
  | none => none
  | some buf =>
    if offset ≥ buf.size then none
    else some (s.shm_base + buf.shm_offset + offset)

/-- `struct npm_emu_register_buffer_req`. -/
structure npm_emu_register_buffer_req where
  shm_offset : Nat
  size : Nat
  flags : Nat
deriving Repr, DecidableEq

/-- `struct npm_emu_register_buffer_rsp`. -/
structure npm_emu_register_buffer_rsp where
  status : Nat
  handle : Nat
deriving Repr, DecidableEq

/-- Embedding of `handle_register_buffer`: unconditionally assign
`handle = next_handle++` (a `uint64_t`, hence the reduction mod `2^64`),
record the entry — with no validation of `shm_offset`/`size` against the
attached SHM region — and reply OK. -/
def handle_register_buffer (s : npm_emu_server_state)
    (req : npm_emu_register_buffer_req) :
    npm_emu_server_state × npm_emu_register_buffer_rsp :=
  let handle := s.next_handle
  ({ s with
       next_handle := (s.next_handle + 1) % size_t_mod,
       buffers := mapInsert s.buffers handle ⟨req.shm_offset, req.size, req.flags⟩ },
   ⟨NPM_EMU_STATUS_OK, handle⟩)

/-- Embedding of `handle_unregister_buffer`: erase (idempotent), reply OK. -/
def handle_unregister_buffer (s : npm_emu_server_state) (handle : Nat) :
    npm_emu_server_state × Nat :=
  ({ s with buffers := mapErase s.buffers handle }, NPM_EMU_STATUS_OK)

/-- `struct npm_emu_matmul_req` (dimensions are `int64_t`; they are
modelled as naturals since non-positive dimensions make every loop empty,
exactly like dimension 0). -/
structure npm_emu_matmul_req where
  a_handle : Nat
  a_offset : Nat
  b_handle : Nat
  b_offset : Nat
  c_handle : Nat
  c_offset : Nat
  M : Nat
  N : Nat
  K : Nat
  lda : Nat
  ldb : Nat
  ldc : Nat
  type_a : Nat
  type_b : Nat
  type_c : Nat
deriving Repr, DecidableEq

/-- `struct npm_emu_matmul_rsp`. -/
structure npm_emu_matmul_rsp where
  status : Nat
  cycles : Nat
  dma_bytes : Nat
deriving Repr, DecidableEq

/-- Tile starting indices of `for (off = 0; off < total; off += T)`:
iteration `i` works at offset `i·T`, so there are `⌈total/T⌉` iterations. -/
def tileIdx (total T : Nat) : List Nat :=
  List.range ((total + T - 1) / T)

/-- Embedding of the tiled loop nest of `handle_matmul` (npm-emu-server.cpp
lines 407-528): the staging, DMA and cycle bookkeeping of the three nested
tile loops, flattened over the tile indices in source order.  The
floating-point writes into the C buffer influence none of the tracked
quantities and are not modelled.  For each (m,n,k) tile: stage A into L2
(DDR→L2 DMA only on a miss), always L2→L1 DMA for A, the same for B, then
(if timing) advance the compute cycles `⌈2·m·n·k / fp32_macs⌉`; after the
k-loop, issue the L1→L2 and L2→DDR DMAs for the C sub-tile. -/
def tiled_k_step (rawCycles : npm_dma_type → Nat → Nat) (T fp32_macs : Nat)
    (timing : Bool) (req : npm_emu_matmul_req) (im inn : Nat)
    (st : npm_memory_hierarchy × npm_dma_model_state) (ik : Nat) :
    npm_memory_hierarchy × npm_dma_model_state :=
  let actual_m := min T (req.M - im * T)
  let actual_n := min T (req.N - inn * T)
  let actual_k := min T (req.K - ik * T)
  let a_off := (im * T * req.lda + ik * T) * sizeofFloat
  let a_bytes := actual_m * actual_k * sizeofFloat
  let b_off := (inn * T * req.ldb + ik * T) * sizeofFloat
  let b_bytes := actual_n * actual_k * sizeofFloat
  let misses0 := st.1.l2_misses
  let hier1 := stage_to_l2 st.1 req.a_handle a_off a_bytes
  let dma1 := if hier1.l2_misses > misses0 then
      dma_transfer rawCycles st.2 .ddr_to_l2 a_bytes else st.2
  let hier2 := stage_to_l1 hier1 0 req.a_handle a_off a_bytes
  let dma2 := dma_transfer rawCycles dma1 .l2_to_l1 a_bytes
  let misses1 := hier2.l2_misses
  let hier3 := stage_to_l2 hier2 req.b_handle b_off b_bytes
  let dma3 := if hier3.l2_misses > misses1 then
      dma_transfer rawCycles dma2 .ddr_to_l2 b_bytes else dma2
  let hier4 := stage_to_l1 hier3 0 req.b_handle b_off b_bytes
  let dma4 := dma_transfer rawCycles dma3 .l2_to_l1 b_bytes
  let dma5 := if timing then
      advance_cycles dma4
        ((2 * actual_m * actual_n * actual_k + fp32_macs - 1) / fp32_macs)
    else dma4
  (hier4, dma5)

/-- The body of the (m_tile, n_tile) loop: zero the C sub-tile (pure FP32
stores, no tracked state), accumulate over the K tiles, then issue the
L1→L2 and L2→DDR DMAs for the C sub-tile. -/
def tiled_mn_step (rawCycles : npm_dma_type → Nat → Nat) (T fp32_macs : Nat)
    (timing : Bool) (req : npm_emu_matmul_req) (im : Nat)
    (st : npm_memory_hierarchy × npm_dma_model_state) (inn : Nat) :
    npm_memory_hierarchy × npm_dma_model_state :=
  let actual_m := min T (req.M - im * T)
  let actual_n := min T (req.N - inn * T)
  let stK := (tileIdx req.K T).foldl
    (tiled_k_step rawCycles T fp32_macs timing req im inn) st
  let c_bytes := actual_m * actual_n * sizeofFloat
  let dmaC1 := dma_transfer rawCycles stK.2 .l1_to_l2 c_bytes
  let dmaC2 := dma_transfer rawCycles dmaC1 .l2_to_ddr c_bytes
  (stK.1, dmaC2)

/-- Embedding of the tiled loop nest of `handle_matmul` (the staging, DMA
and cycle bookkeeping of the three nested tile loops, flattened over the
tile indices in source order).  The floating-point writes into the C buffer
influence none of the tracked quantities and are not modelled. -/
def tiled_matmul (rawCycles : npm_dma_type → Nat → Nat) (T fp32_macs : Nat)
    (timing : Bool) (req : npm_emu_matmul_req)
    (st0 : npm_memory_hierarchy × npm_dma_model_state) :
    npm_memory_hierarchy × npm_dma_model_state :=
  (tileIdx req.M T).foldl (fun stM im =>
    (tileIdx req.N T).foldl
      (tiled_mn_step rawCycles T fp32_macs timing req im) stM) st0

/-- The server's `fp32_macs = config ? config->fp16_macs / 2 : 2000` used
by the tiled compute-cycle estimate. -/
def sku_fp32_macs (sku : npm_sku) : Nat :=
  match npm_get_sku_config sku with
  | some cfg => cfg.fp16_macs / 2
  | none => 2000

/-- Embedding of `handle_matmul`: resolve the three handles (INVALID_HANDLE
with zero cycles/dma and no execution if any fails); in tiled mode reset the
DMA stats and the hierarchy, run the tiled loop nest, and reply OK with
`dma_bytes = total_bytes` and `cycles = current_cycle` — the latter only
when timing is enabled, else 0; in simple mode run the plain triple loop
(pure FP32 stores, no tracked state) and reply `{OK, 0, 0}`. -/
def handle_matmul (rawCycles : npm_dma_type → Nat → Nat)
    (s : npm_emu_server_state) (req : npm_emu_matmul_req) :
    npm_emu_server_state × npm_emu_matmul_rsp :=
  let tile_size := if s.tiling_enabled then calculate_tile_size s.l1_size else 0
  match resolve_handle s req.a_handle req.a_offset,
        resolve_handle s req.b_handle req.b_offset,
        resolve_handle s req.c_handle req.c_offset with
  | some _, some _, some _ =>
    if s.tiling_enabled then
      let st := tiled_matmul rawCycles tile_size (sku_fp32_macs s.sku)
        s.timing_enabled req
        (hier_reset s.mem_hierarchy, dma_reset_stats s.dma_model)
      let total_dma_bytes := st.2.total_bytes
      let total_cycles := if s.timing_enabled then st.2.current_cycle else 0
      ({ s with mem_hierarchy := st.1, dma_model := st.2,
                total_matmul_ops := s.total_matmul_ops + 1 },
       ⟨NPM_EMU_STATUS_OK, total_cycles, total_dma_bytes⟩)
    else
      ({ s with total_matmul_ops := s.total_matmul_ops + 1 },
       ⟨NPM_EMU_STATUS_OK, 0, 0⟩)
  | _, _, _ => (s, ⟨NPM_EMU_STATUS_INVALID_HANDLE, 0, 0⟩)

/-! ## Server session loop (npm_emu_server_run) -/

/-- `struct npm_emu_hello_req` (the SHM name is an abstract identifier). -/
structure npm_emu_hello_req where
  version_major : Nat
  version_minor : Nat
  shm_name : Nat
  shm_size : Nat
deriving Repr, DecidableEq

/-- `struct npm_emu_ping_req`. -/
structure npm_emu_ping_req where
  echo_data : Nat
  timestamp : Nat
deriving Repr, DecidableEq

/-- One request as parsed by the dispatch loop: the command tag together
with the request payload its handler `recv`s.  `unknown c` embeds any
command byte without a `case` label (for example `GET_CONFIG = 0x10`),
which carries no payload. -/
inductive npm_emu_payload where
  | hello (req : npm_emu_hello_req)
  | goodbye
  | ping (req : npm_emu_ping_req)
  | register_buffer (req : npm_emu_register_buffer_req)
  | unregister_buffer (handle : Nat)
  | matmul (req : npm_emu_matmul_req)
  | sync
  | fence_create
  | fence_destroy (fence_id : Nat)
  | fence_wait (fence_id : Nat) (timeout_ns : Nat)
  | unknown (cmd : Nat)
deriving Repr, DecidableEq

/-- One wire message: the header fields the server looks at plus the
payload. -/
structure npm_emu_msg where
  magic : Nat
  version_major : Nat
  seq_id : Nat
  payload : npm_emu_payload
deriving Repr, DecidableEq

/-- One response as sent by a handler: echoed sequence id, status byte, and
the response-payload numbers. -/
structure npm_emu_reply where
  seq_id : Nat
  status : Nat
  data : List Nat
deriving Repr, DecidableEq

/-- Embedding of `handle_hello`: attach the client's SHM (`shm_lookup`
models `shm_open` + `mmap` of the named region; on failure `shm_base` keeps
its previous value) and reply with the device info; status is OK exactly
when `shm_base` is non-null afterwards. -/
def handle_hello (shm_lookup : Nat → Option Nat) (s : npm_emu_server_state)
    (seq : Nat) (req : npm_emu_hello_req) :
    npm_emu_server_state × npm_emu_reply :=
  let s2 := match shm_lookup req.shm_name with
    | some base => { s with shm_base := base, shm_size := req.shm_size }
    | none => s
  (s2,
   ⟨seq, if s2.shm_base ≠ 0 then NPM_EMU_STATUS_OK else NPM_EMU_STATUS_ERROR,
    [s2.num_engines, s2.l1_size, s2.l2_size]⟩)

/-- Embedding of `handle_goodbye`: unmap the SHM, clear the registry, reply
OK (the dispatch loop then closes the connection). -/
def handle_goodbye (s : npm_emu_server_state) (seq : Nat) :
    npm_emu_server_state × npm_emu_reply :=
  ({ s with shm_base := 0, shm_size := 0, buffers := [] },
   ⟨seq, NPM_EMU_STATUS_OK, []⟩)

/-- Embedding of `handle_ping` (`ts` stands for the server's
`clock_gettime` value, an input of the environment). -/
def handle_ping (s : npm_emu_server_state) (ts seq : Nat)
    (req : npm_emu_ping_req) : npm_emu_server_state × npm_emu_reply :=
  (s, ⟨seq, NPM_EMU_STATUS_OK, [req.timestamp, ts, req.echo_data]⟩)

/-- Embedding of `handle_fence_create`. -/
def handle_fence_create (s : npm_emu_server_state) (seq : Nat) :
    npm_emu_server_state × npm_emu_reply :=
  ({ s with next_fence_id := s.next_fence_id + 1 },
   ⟨seq, NPM_EMU_STATUS_OK, [s.next_fence_id]⟩)

/-- Embedding of the per-client dispatch loop in `npm_emu_server_run`: read
a header; an invalid header (magic or major version) logs and BREAKS out of
the message loop — the connection closes with no reply and nothing further
served; GOODBYE replies and then leaves via `goto client_done`; an unknown
command logs and `break`s only out of the `switch`, so the loop continues
with the next message; every other command runs its handler and replies. -/
def serve_client (rawCycles : npm_dma_type → Nat → Nat)
    (shm_lookup : Nat → Option Nat) (ts : Nat) :
    npm_emu_server_state → List npm_emu_msg → List npm_emu_reply
  | _, [] => []
  | s, m :: rest =>
    if npm_emu_header_validate m.magic m.version_major ≠ 0 then []
    else
      match m.payload with
      | .hello req =>
        let r := handle_hello shm_lookup s m.seq_id req
        r.2 :: serve_client rawCycles shm_lookup ts r.1 rest
      | .goodbye => [(handle_goodbye s m.seq_id).2]
      | .ping req =>
        let r := handle_ping s ts m.seq_id req
        r.2 :: serve_client rawCycles shm_lookup ts r.1 rest
      | .register_buffer req =>
        let r := handle_register_buffer s req
        ⟨m.seq_id, r.2.status, [r.2.handle]⟩ ::
          serve_client rawCycles shm_lookup ts r.1 rest
      | .unregister_buffer handle =>
        let r := handle_unregister_buffer s handle
        ⟨m.seq_id, r.2, []⟩ :: serve_client rawCycles shm_lookup ts r.1 rest
      | .matmul req =>
        let r := handle_matmul rawCycles s req
        ⟨m.seq_id, r.2.status, [r.2.cycles, r.2.dma_bytes]⟩ ::
          serve_client rawCycles shm_lookup ts r.1 rest
      | .sync =>
        ⟨m.seq_id, NPM_EMU_STATUS_OK, []⟩ ::
          serve_client rawCycles shm_lookup ts s rest
      | .fence_create =>
        let r := handle_fence_create s m.seq_id
        r.2 :: serve_client rawCycles shm_lookup ts r.1 rest
      | .fence_destroy _ =>
        ⟨m.seq_id, NPM_EMU_STATUS_OK, []⟩ ::
          serve_client rawCycles shm_lookup ts s rest
      | .fence_wait _ _ =>
        ⟨m.seq_id, NPM_EMU_STATUS_OK, []⟩ ::
          serve_client rawCycles shm_lookup ts s rest
      | .unknown _ => serve_client rawCycles shm_lookup ts s rest

/-- The register-buffer handler applied to a whole request sequence,
collecting the replies. -/
def register_sequence (s : npm_emu_server_state)
    (reqs : List npm_emu_register_buffer_req) :
    npm_emu_server_state × List npm_emu_register_buffer_rsp :=
  match reqs with
  | [] => (s, [])
  | r :: rest =>
    let x := handle_register_buffer s r
    let y := register_sequence x.1 rest
    (y.1, x.2 :: y.2)

/-! ## Witness states for the server claims, and claim C10 -/

/-- A concrete idle server state (SKU NPM8K, 1 MiB L1, 8 MiB L2) as left by
`npm_emu_server_create` plus an attached SHM mapping, used to instantiate
the server theorems. -/
def baseServer : npm_emu_server_state :=
  { sku := .npm8k, tiling_enabled := false, timing_enabled := false,
    shm_base := 4096, shm_size := 1048576, buffers := [],
    next_handle := 1, next_fence_id := 1, num_engines := 1,
    l1_size := 1024 * 1024, l2_size := 8 * 1024 * 1024,
    total_matmul_ops := 0,
    mem_hierarchy := mkHierarchy 1 (1024 * 1024) (8 * 1024 * 1024),
    dma_model := ⟨0, 0, 0, 0, 0⟩ }

/-- Ceiling-division cycle model at the configured bandwidths (64 and 256
bytes per cycle), one sound instantiation of the abstracted double
arithmetic of `calculate_cycles`. -/
def rawCyclesCfg : npm_dma_type → Nat → Nat := fun t b =>
  match t with
  | .ddr_to_l2 | .l2_to_ddr => (b + 63) / 64
  | .l2_to_l1 | .l1_to_l2 => (b + 255) / 256

/-! ## Claim C2: resolve bounds checking -/

/-- The server of `claim_C2_resolve_bounds_witness`: one buffer registered
as handle 1 with size 24 at SHM offset 0. -/
def serverC2 : npm_emu_server_state :=
  { baseServer with buffers := [(1, ⟨0, 24, 0⟩)], next_handle := 2 }

/-- The server of the C4 witness and counterexample: tiling on, timing on,
one buffer (handle 1, 4096 bytes) resolvable at offset 0. -/
def serverC4 : npm_emu_server_state :=
  { baseServer with
    tiling_enabled := true, timing_enabled := true,
    buffers := [(1, ⟨0, 4096, 0⟩)], next_handle := 2 }

/-- The same server with timing disabled. -/
def serverC4off : npm_emu_server_state :=
  { serverC4 with timing_enabled := false }

/-- A 2x2x2 FP32 matmul request on handle 1. -/
def reqC4 : npm_emu_matmul_req :=
  ⟨1, 0, 1, 0, 1, 0, 2, 2, 2, 2, 2, 2, 0, 0, 0⟩

/-! ## Theorems -/

theorem potLoop_pow : ∀ (d j t : Nat), t - 2 ^ j ≤ d → 2 ^ j ≤ t →
    potLoop (2 ^ j) t = 2 ^ Nat.log2 t := by
  intro d
  induction d with
  | zero =>
    intro j t hd h
    have ht : t = 2 ^ j := by omega
    subst ht
    rw [potLoop]
    have hpos : 0 < (2:Nat) ^ j := Nat.pos_pow_of_pos j (by norm_num)
    have hcond : ¬ (0 < 2 ^ j ∧ 2 ^ j * 2 ≤ 2 ^ j) := by
      intro hc
      omega
    rw [dif_neg hcond]
    rw [Nat.log2_eq_log_two, Nat.log_pow (by norm_num)]
  | succ d ih =>
    intro j t hd h
    rw [potLoop]
    by_cases hstep : 2 ^ j * 2 ≤ t
    · have hpos : 0 < (2:Nat) ^ j := Nat.pos_pow_of_pos j (by norm_num)
      rw [dif_pos ⟨hpos, hstep⟩]
      have h2 : (2:Nat) ^ j * 2 = 2 ^ (j + 1) := by ring
      rw [h2]
      apply ih
      · have : (2:Nat) ^ j < 2 ^ (j + 1) := by
          have := Nat.pos_pow_of_pos j (show 0 < 2 by norm_num)
          calc (2:Nat) ^ j < 2 ^ j * 2 := by omega
            _ = 2 ^ (j + 1) := h2
        omega
      · omega
    · have hpos : 0 < (2:Nat) ^ j := Nat.pos_pow_of_pos j (by norm_num)
      rw [dif_neg (by intro hc; exact hstep hc.2)]
      have hlt : t < 2 ^ (j + 1) := by
        have h2 : (2:Nat) ^ j * 2 = 2 ^ (j + 1) := by ring
        omega
      rw [Nat.log2_eq_log_two]
      rw [Nat.log_eq_of_pow_le_of_lt_pow h hlt]

/-- The while-loop computes the largest power of two at most its bound. -/
theorem potLoop_one (t : Nat) (h : 1 ≤ t) : potLoop 1 t = 2 ^ Nat.log2 t := by
  have := potLoop_pow (t - 1) 0 t (by simp) (by simpa using h)
  simpa using this

/-- Evaluation rule for `Nat.sqrt` through its characterisation. -/
theorem sqrt_eval (n r : Nat) (h1 : r * r ≤ n) (h2 : n < (r + 1) * (r + 1)) :
    Nat.sqrt n = r :=
  (Nat.eq_sqrt.mpr ⟨h1, h2⟩).symm

/-- Evaluation rule for `Nat.log2`. -/
theorem log2_eval (n j : Nat) (h1 : 2 ^ j ≤ n) (h2 : n < 2 ^ (j + 1)) :
    Nat.log2 n = j := by
  rw [Nat.log2_eq_log_two]
  exact Nat.log_eq_of_pow_le_of_lt_pow h1 h2

/-- The code's tile-size computation agrees with the spec's formula for every
L1 capacity. -/
theorem calculate_tile_size_eq_spec (l1 : Nat) :
    calculate_tile_size l1 = spec_tile_size l1 := by
  unfold calculate_tile_size spec_tile_size sizeofFloat
  have hdiv : l1 / 4 / 3 = l1 / 12 := by
    rw [Nat.div_div_eq_div_mul]
  simp only [hdiv]
  set s := Nat.sqrt (l1 / 12) with hs
  have h1 : 1 ≤ max 32 s := by omega
  rw [potLoop_one _ h1]
  by_cases hcase : 32 ≤ s
  · rw [max_eq_right hcase]
    have hlog32 : Nat.log 2 32 = 5 :=
      Nat.log_eq_of_pow_le_of_lt_pow (by norm_num) (by norm_num)
    have h5 : 5 ≤ Nat.log2 s := by
      have hmono : Nat.log 2 32 ≤ Nat.log 2 s := Nat.log_mono_right hcase
      rw [Nat.log2_eq_log_two]
      omega
    have h32 : 32 ≤ 2 ^ Nat.log2 s :=
      calc (32:Nat) = 2 ^ 5 := by norm_num
        _ ≤ 2 ^ Nat.log2 s := Nat.pow_le_pow_right (by norm_num) h5
    rw [max_eq_right h32]
  · push_neg at hcase
    rw [max_eq_left (Nat.le_of_lt hcase)]
    have hlog : Nat.log2 32 = 5 := log2_eval 32 5 (by norm_num) (by norm_num)
    have hpow : 2 ^ Nat.log2 s ≤ 32 := by
      rcases Nat.eq_zero_or_pos s with h0 | hpos
      · rw [h0, Nat.log2_eq_log_two, Nat.log_zero_right]
        norm_num
      · have hle := Nat.pow_log_le_self 2 (Nat.pos_iff_ne_zero.mp hpos)
        rw [← Nat.log2_eq_log_two] at hle
        omega
    rw [hlog, max_eq_left hpow]
    norm_num

/-- Claim C5: in tiled mode the tile side `T` derived from the L1 capacity
equals the largest power of two less than or equal to
`floor (sqrt (L1_bytes / 12))`, with a lower bound of `T = 32`; in particular
an L1 of 1 MiB yields `T = 256`. -/
theorem claim_C5_tile_size :
    (∀ l1, calculate_tile_size l1 = spec_tile_size l1) ∧
      calculate_tile_size (1024 * 1024) = 256 := by
  refine ⟨calculate_tile_size_eq_spec, ?_⟩
  rw [calculate_tile_size_eq_spec]
  unfold spec_tile_size
  have h1 : (1024 * 1024 : Nat) / 12 = 87381 := by norm_num
  rw [h1, sqrt_eval 87381 295 (by norm_num) (by norm_num),
      log2_eval 295 8 (by norm_num) (by norm_num)]
  norm_num

/-- Masking with the complement of `2^k - 1` clears the low `k` bits. -/
theorem land_not_mask (k x : Nat) (hk : k ≤ 64) (hx : x < 2 ^ 64) :
    x &&& (2 ^ 64 - 2 ^ k) = x - x % 2 ^ k := by
  have hsub : 64 - k + k = 64 := by omega
  have hsplit : (2:Nat) ^ 64 - 2 ^ k = (2 ^ (64 - k) - 1) <<< k := by
    rw [Nat.shiftLeft_eq, Nat.sub_mul, one_mul, ← Nat.pow_add, hsub]
  have hcomm : 2 ^ k * (x / 2 ^ k) = x / 2 ^ k * 2 ^ k := Nat.mul_comm _ _
  have hdm := Nat.div_add_mod x (2 ^ k)
  have hrhs : x - x % 2 ^ k = (x >>> k) <<< k := by
    rw [Nat.shiftRight_eq_div_pow, Nat.shiftLeft_eq]
    omega
  rw [hsplit, hrhs]
  apply Nat.eq_of_testBit_eq
  intro i
  rw [Nat.testBit_land, Nat.testBit_shiftLeft, Nat.testBit_shiftLeft,
      Nat.testBit_shiftRight, Nat.testBit_two_pow_sub_one]
  by_cases hik : k ≤ i
  · have hki : k + (i - k) = i := by omega
    rw [hki]
    by_cases hi64 : i < 64
    · have hlt : i - k < 64 - k := by omega
      simp [hik, hlt, ge_iff_le]
    · have hfb : x.testBit i = false :=
        Nat.testBit_eq_false_of_lt
          (lt_of_lt_of_le hx (Nat.pow_le_pow_right (by norm_num) (by omega)))
      simp [hfb]
  · simp [hik, ge_iff_le]

/-- Alignment by mask equals rounding up, for power-of-two alignments. -/
theorem mask_align_eq_align_up (k w : Nat) (hk : k ≤ 64)
    (hw : w + 2 ^ k ≤ 2 ^ 64) :
    ((w + 2 ^ k - 1) % size_t_mod) &&& not64 ((2 ^ k - 1) % size_t_mod) =
      align_up w (2 ^ k) := by
  have hp : 0 < (2:Nat) ^ k := Nat.pos_pow_of_pos k (by norm_num)
  have h64 : ((2:Nat) ^ k - 1) % size_t_mod = 2 ^ k - 1 := by
    apply Nat.mod_eq_of_lt
    have : (2:Nat) ^ k ≤ 2 ^ 64 := Nat.pow_le_pow_right (by norm_num) hk
    unfold size_t_mod
    omega
  have hx : (w + 2 ^ k - 1) % size_t_mod = w + 2 ^ k - 1 := by
    apply Nat.mod_eq_of_lt
    unfold size_t_mod
    omega
  rw [h64, hx]
  have hnot : not64 (2 ^ k - 1) = 2 ^ 64 - 2 ^ k := by
    unfold not64 size_t_mod
    omega
  rw [hnot, land_not_mask k _ hk (by omega)]
  unfold align_up
  have hdm := Nat.div_add_mod (w + 2 ^ k - 1) (2 ^ k)
  have hcomm : 2 ^ k * ((w + 2 ^ k - 1) / 2 ^ k) =
      (w + 2 ^ k - 1) / 2 ^ k * 2 ^ k := Nat.mul_comm _ _
  have hmod : (w + 2 ^ k - 1) % 2 ^ k < 2 ^ k := Nat.mod_lt _ hp
  omega

/-- Claim C6 (amended): for a power-of-two alignment (the C code substitutes
64 when alignment is 0) and absent `size_t` overflow, a successful
`npm_shm_alloc` returns the watermark rounded up to the alignment and bumps
the watermark to `offset + size`; the call fails exactly when `size = 0` or
when the ALIGNED offset plus `size` exceeds the capacity, and on failure the
region (base, capacity, watermark) is unchanged.  The original claim's
failure condition `watermark + size > capacity` is refuted by
`claim_C6_counterexample`. -/
theorem claim_C6_shm_alloc (region : npm_shm_region) (size alignment k : Nat)
    (hal : alignment = 2 ^ k) (hk : k ≤ 64)
    (hw : region.allocated + alignment ≤ 2 ^ 64)
    (hov : align_up region.allocated alignment + size < 2 ^ 64) :
    (size ≠ 0 → align_up region.allocated alignment + size ≤ region.size →
      npm_shm_alloc region size alignment =
        (some (align_up region.allocated alignment),
         { region with
             allocated := align_up region.allocated alignment + size })) ∧
    (size = 0 ∨ align_up region.allocated alignment + size > region.size →
      npm_shm_alloc region size alignment = (none, region)) := by
  have hpos : 0 < (2:Nat) ^ k := Nat.pos_pow_of_pos k (by norm_num)
  subst hal
  have hif : (if (2:Nat) ^ k = 0 then 64 else 2 ^ k) = 2 ^ k := by
    rw [if_neg (by omega)]
  have hmask := mask_align_eq_align_up k region.allocated hk (by omega)
  have hmod : align_up region.allocated (2 ^ k) + size < size_t_mod := by
    unfold size_t_mod
    omega
  constructor
  · intro hsz hfit
    unfold npm_shm_alloc
    rw [if_neg hsz, hif]
    dsimp only
    rw [hmask, Nat.mod_eq_of_lt hmod, if_neg (by omega)]
  · intro hfail
    unfold npm_shm_alloc
    by_cases hsz : size = 0
    · rw [if_pos hsz]
    · rcases hfail with hsz0 | hbig
      · exact absurd hsz0 hsz
      · rw [if_neg hsz, hif]
        dsimp only
        rw [hmask, Nat.mod_eq_of_lt hmod, if_pos (by omega)]

/-- Witness for C6: a concrete successful allocation: watermark 50,
alignment 64, size 40 inside capacity 1000 returns offset 64 and new
watermark 104. -/
theorem claim_C6_shm_alloc_witness :
    npm_shm_alloc ⟨0, 1000, 50⟩ 40 64 = (some 64, ⟨0, 1000, 104⟩) := by
  have h := claim_C6_shm_alloc ⟨0, 1000, 50⟩ 40 64 6 (by norm_num) (by norm_num)
      (by norm_num) (by norm_num [align_up])
  have h2 := h.1 (by norm_num) (by norm_num [align_up])
  simpa [align_up] using h2

/-- Counterexample for C6 as stated: with capacity 100, watermark 50,
alignment 64 and size 40 the call FAILS even though
`watermark + size = 90 ≤ 100 = capacity`, because the aligned offset is 64
and `64 + 40 > 100`.  So "fails exactly when watermark + size > capacity"
is false. -/
theorem claim_C6_counterexample :
    npm_shm_alloc ⟨0, 100, 50⟩ 40 64 = (none, ⟨0, 100, 50⟩) ∧
      50 + 40 ≤ 100 := by
  have h := claim_C6_shm_alloc ⟨0, 100, 50⟩ 40 64 6 (by norm_num) (by norm_num)
      (by norm_num) (by norm_num [align_up])
  exact ⟨h.2 (Or.inr (by norm_num [align_up])), by norm_num⟩

theorem foldl_congr_reads {F : Type} (f g : F → Nat → F) (l : List Nat) (init : F)
    (h : ∀ s k, k ∈ l → f s k = g s k) : l.foldl f init = l.foldl g init := by
  induction l generalizing init with
  | nil => rfl
  | cons x xs ih =>
    simp only [List.foldl_cons]
    rw [h init x (by simp)]
    exact ih _ (fun s k hk => h s k (by simp [hk]))

theorem gemmRowSum_congr {F : Type} (zero : F) (add mul : F → F → F)
    (mem mem0 : Nat → F) (baseA baseB lda ldb K m n : Nat)
    (h : ∀ k, k < K →
      mem (baseA + m * lda + k) = mem0 (baseA + m * lda + k) ∧
      mem (baseB + n * ldb + k) = mem0 (baseB + n * ldb + k)) :
    gemmRowSum zero add mul mem baseA baseB lda ldb K m n =
      gemmRowSum zero add mul mem0 baseA baseB lda ldb K m n := by
  unfold gemmRowSum
  apply foldl_congr_reads
  intro s k hk
  have hk2 : k < K := List.mem_range.mp hk
  rw [(h k hk2).1, (h k hk2).2]

theorem gemmLoops_untouched {F : Type} (zero : F) (add mul : F → F → F)
    (baseA baseB baseC lda ldb ldc K : Nat) (ps : List (Nat × Nat))
    (mem : Nat → F) (addr : Nat)
    (h : ∀ mn ∈ ps, addr ≠ baseC + mn.1 * ldc + mn.2) :
    ps.foldl (gemmStep zero add mul baseA baseB baseC lda ldb ldc K) mem addr =
      mem addr := by
  induction ps generalizing mem with
  | nil => rfl
  | cons p rest ih =>
    simp only [List.foldl_cons]
    rw [ih _ (fun mn hmn => h mn (by simp [hmn]))]
    unfold gemmStep
    rw [if_neg (h p (by simp))]

theorem gemmLoops_writes {F : Type} (zero : F) (add mul : F → F → F)
    (baseA baseB baseC lda ldb ldc M N K : Nat) (mem0 : Nat → F)
    (hdisj : ∀ a, readsAB baseA baseB lda ldb M N K a →
       ∀ m n, m < M → n < N → a ≠ baseC + m * ldc + n) :
    ∀ (ps : List (Nat × Nat)) (mem : Nat → F),
      (∀ mn ∈ ps, mn.1 < M ∧ mn.2 < N) →
      (∀ p ∈ ps, ∀ q ∈ ps,
          baseC + p.1 * ldc + p.2 = baseC + q.1 * ldc + q.2 → p = q) →
      ps.Nodup →
      (∀ a, readsAB baseA baseB lda ldb M N K a → mem a = mem0 a) →
      ∀ mn ∈ ps,
        (ps.foldl (gemmStep zero add mul baseA baseB baseC lda ldb ldc K) mem)
            (baseC + mn.1 * ldc + mn.2) =
          gemmRowSum zero add mul mem0 baseA baseB lda ldb K mn.1 mn.2 := by
  intro ps
  induction ps with
  | nil =>
    intro mem _ _ _ _ mn hmn
    cases hmn
  | cons p rest ih =>
    intro mem hb hinj hnd hmem mn hmn
    simp only [List.foldl_cons]
    have hpb := hb p (by simp)
    have hstep : ∀ a, readsAB baseA baseB lda ldb M N K a →
        gemmStep zero add mul baseA baseB baseC lda ldb ldc K mem p a = mem0 a := by
      intro a ha
      unfold gemmStep
      rw [if_neg (hdisj a ha p.1 p.2 hpb.1 hpb.2)]
      exact hmem a ha
    rcases List.mem_cons.mp hmn with rfl | hmn2
    · rw [gemmLoops_untouched zero add mul baseA baseB baseC lda ldb ldc K rest _ _ ?hne]
      case hne =>
        intro q hq hEq
        have hpq : mn = q := hinj mn (by simp) q (by simp [hq]) hEq
        rw [List.nodup_cons] at hnd
        exact hnd.1 (hpq ▸ hq)
      unfold gemmStep
      rw [if_pos rfl]
      apply gemmRowSum_congr
      intro k hk
      exact ⟨hmem _ (Or.inl ⟨mn.1, k, hpb.1, hk, rfl⟩),
             hmem _ (Or.inr ⟨mn.2, k, hpb.2, hk, rfl⟩)⟩
    · apply ih _ (fun q hq => hb q (by simp [hq]))
          (fun q hq r hr => hinj q (by simp [hq]) r (by simp [hr]))
          ((List.nodup_cons.mp hnd).2) hstep mn hmn2

/-- Row-major output addresses are injective in `(m, n)` when `N ≤ ldc`. -/
theorem c_addr_inj (baseC ldc m n m2 n2 : Nat)
    (hn : n < ldc) (hn2 : n2 < ldc)
    (heq : baseC + m * ldc + n = baseC + m2 * ldc + n2) :
    m = m2 ∧ n = n2 := by
  rcases Nat.lt_trichotomy m m2 with hlt | heqm | hgt
  · exfalso
    have hmul : (m + 1) * ldc ≤ m2 * ldc := Nat.mul_le_mul_right ldc hlt
    have hexp : (m + 1) * ldc = m * ldc + ldc := by ring
    omega
  · subst heqm
    omega
  · exfalso
    have hmul : (m2 + 1) * ldc ≤ m * ldc := Nat.mul_le_mul_right ldc hgt
    have hexp : (m2 + 1) * ldc = m2 * ldc + ldc := by ring
    omega

theorem rowMajorPairs_mem (M N : Nat) (mn : Nat × Nat) :
    mn ∈ rowMajorPairs M N ↔ mn.1 < M ∧ mn.2 < N := by
  unfold rowMajorPairs
  simp only [List.mem_flatMap, List.mem_map, List.mem_range]
  constructor
  · rintro ⟨a, ha, b, hb, rfl⟩
    exact ⟨ha, hb⟩
  · rintro ⟨h1, h2⟩
    exact ⟨mn.1, h1, mn.2, h2, by rfl⟩

theorem rowMajorPairs_nodup (M N : Nat) : (rowMajorPairs M N).Nodup := by
  unfold rowMajorPairs
  rw [List.nodup_flatMap]
  constructor
  · intro m _
    exact (List.nodup_range N).map (fun a b h => congrArg Prod.snd h)
  · apply List.Pairwise.imp ?_ (List.pairwise_lt_range M)
    intro m1 m2 hlt
    intro a ha1 ha2
    rcases List.mem_map.mp ha1 with ⟨n1, _, rfl⟩
    rcases List.mem_map.mp ha2 with ⟨n2, _, hEq⟩
    have : m2 = m1 := congrArg Prod.fst hEq
    omega

/-- Claim C1: with FP32 on all three operands and registered handles, the
mock matmul returns 0 and every output element `C[m*ldc + n]` equals the
reference naive GEMM `Σₖ A[m*lda+k]·B[n*ldb+k]` computed over the inputs —
bit for bit, because the equality holds over an arbitrary carrier of FP32
values with uninterpreted `add`/`mul`.  The hypotheses make the call
well-formed: the three handles resolve, the written C region does not
overlap the A/B regions read, and `N ≤ ldc` (so distinct (m, n) map to
distinct output cells). -/
theorem claim_C1_mock_matmul {F : Type} (zero : F) (add mul : F → F → F)
    (ctx : npm_device_mock_context) (mem0 : Nat → F) (p : npm_matmul_params)
    (baseA baseB baseC : Nat)
    (hta : p.type_a = GGML_TYPE_F32) (htb : p.type_b = GGML_TYPE_F32)
    (htc : p.type_c = GGML_TYPE_F32)
    (hA : npm_device_mock_resolve_handle ctx p.a_handle p.a_offset = some baseA)
    (hB : npm_device_mock_resolve_handle ctx p.b_handle p.b_offset = some baseB)
    (hC : npm_device_mock_resolve_handle ctx p.c_handle p.c_offset = some baseC)
    (hdisj : ∀ a, readsAB baseA baseB p.lda p.ldb p.M p.N p.K a →
       ∀ m n, m < p.M → n < p.N → a ≠ baseC + m * p.ldc + n)
    (hldc : p.N ≤ p.ldc) :
    (npm_device_mock_matmul zero add mul ctx mem0 p).1 = 0 ∧
    ∀ m n, m < p.M → n < p.N →
      (npm_device_mock_matmul zero add mul ctx mem0 p).2 (baseC + m * p.ldc + n) =
        reference_gemm zero add mul mem0 baseA baseB p.lda p.ldb p.K m n := by
  have hval : npm_device_mock_matmul zero add mul ctx mem0 p =
      (0, gemmLoops zero add mul baseA baseB baseC p.lda p.ldb p.ldc p.M p.N p.K mem0) := by
    unfold npm_device_mock_matmul
    rw [if_neg (by simp [hta, htb, htc]), hA, hB, hC]
  rw [hval]
  refine ⟨rfl, ?_⟩
  intro m n hm hn
  have hinj : ∀ q ∈ rowMajorPairs p.M p.N, ∀ r ∈ rowMajorPairs p.M p.N,
      baseC + q.1 * p.ldc + q.2 = baseC + r.1 * p.ldc + r.2 → q = r := by
    intro q hq r hr hEq
    have hqb := (rowMajorPairs_mem p.M p.N q).mp hq
    have hrb := (rowMajorPairs_mem p.M p.N r).mp hr
    have := c_addr_inj baseC p.ldc q.1 q.2 r.1 r.2 (by omega) (by omega) hEq
    exact Prod.ext this.1 this.2
  have := gemmLoops_writes zero add mul baseA baseB baseC p.lda p.ldb p.ldc
      p.M p.N p.K mem0 hdisj (rowMajorPairs p.M p.N) mem0
      (fun mn hmn => (rowMajorPairs_mem p.M p.N mn).mp hmn)
      hinj (rowMajorPairs_nodup p.M p.N) (fun a _ => rfl)
      (m, n) ((rowMajorPairs_mem p.M p.N (m, n)).mpr ⟨hm, hn⟩)
  exact this

/-- Witness for C1: Scenario A evaluated concretely; the call returns 0, the
(1,3) output element equals the reference GEMM there, and its value is 15
as the spec's Scenario A expects. -/
theorem claim_C1_mock_matmul_witness :
    (npm_device_mock_matmul (0 : Int) (fun a b => a + b) (fun a b => a * b)
        mockCtxA memA paramsA).1 = 0 ∧
    (npm_device_mock_matmul (0 : Int) (fun a b => a + b) (fun a b => a * b)
        mockCtxA memA paramsA).2 (300 + 1 * 4 + 3) =
      reference_gemm (0 : Int) (fun a b => a + b) (fun a b => a * b)
        memA 100 200 3 3 3 1 3 ∧
    reference_gemm (0 : Int) (fun a b => a + b) (fun a b => a * b)
        memA 100 200 3 3 3 1 3 = 15 := by
  have h := claim_C1_mock_matmul (0 : Int) (fun a b => a + b) (fun a b => a * b)
      mockCtxA memA paramsA 100 200 300 rfl rfl rfl rfl rfl rfl ?hdisj (by decide)
  case hdisj =>
    simp only [paramsA]
    rintro a (⟨m, k, hm, hk, rfl⟩ | ⟨n, k, hn, hk, rfl⟩) m2 n2 hm2 hn2 <;> omega
  exact ⟨h.1, h.2 1 3 (by decide) (by decide), by decide⟩

/-- Claim C8 (amended to the IPC-client device): with a registered handle and
`size ≤` the registered size, `update_buffer` copies the new host bytes into
the existing SHM slot, returns success, and leaves the registration — and
every byte outside the slot — unchanged; with `size` greater than the
registered size it fails with the invalid-parameters code `-2` and changes
nothing.  (The MOCK device violates the original claim: see
`claim_C8_counterexample`.) -/
theorem claim_C8_update_buffer {F : Type} (ctx : npm_device_emu_context)
    (mem : Nat → F) (handle ptr size : Nat) (bi : npm_emu_client_buffer_info)
    (hfind : findByHandle ctx.buffers handle = some bi)
    (hoff : bi.shm_offset < ctx.shm.size) :
    (size ≤ bi.buf_size →
      (npm_device_emu_update_buffer ctx mem handle ptr size).1 = 0 ∧
      (npm_device_emu_update_buffer ctx mem handle ptr size).2.1 = ctx ∧
      (∀ i, i < size →
        (npm_device_emu_update_buffer ctx mem handle ptr size).2.2
            (ctx.shm.base + bi.shm_offset + i) = mem (ptr + i)) ∧
      (∀ a, a < ctx.shm.base + bi.shm_offset ∨
            ctx.shm.base + bi.shm_offset + size ≤ a →
        (npm_device_emu_update_buffer ctx mem handle ptr size).2.2 a = mem a)) ∧
    (size > bi.buf_size →
      npm_device_emu_update_buffer ctx mem handle ptr size = (-2, ctx, mem)) := by
  have hptr : npm_shm_get_ptr ctx.shm bi.shm_offset =
      some (ctx.shm.base + bi.shm_offset) := by
    unfold npm_shm_get_ptr
    rw [if_neg (by omega)]
  constructor
  · intro hle
    unfold npm_device_emu_update_buffer
    rw [hfind]
    simp only [if_neg (by omega : ¬ size > bi.buf_size), hptr]
    refine ⟨by trivial, by trivial, ?_, ?_⟩
    · intro i hi
      rw [if_pos (by omega)]
      congr 1
      omega
    · intro a ha
      rw [if_neg (by omega)]
  · intro hgt
    unfold npm_device_emu_update_buffer
    rw [hfind]
    simp only [if_pos hgt]

/-- Witness for C8: one registered buffer (host pointer 777 mapped to handle
5, SHM offset 64, registered size 16); updating 8 bytes succeeds, copies the
bytes, and leaves the byte before the slot alone. -/
theorem claim_C8_update_buffer_witness :
    ((npm_device_emu_update_buffer ⟨⟨1000, 4096, 128⟩, [(777, ⟨5, 64, 16⟩)]⟩
        (fun a => (a : Int)) 5 777 8).1 = 0 ∧
     (npm_device_emu_update_buffer ⟨⟨1000, 4096, 128⟩, [(777, ⟨5, 64, 16⟩)]⟩
        (fun a => (a : Int)) 5 777 8).2.2 (1000 + 64 + 3) = ((777 + 3 : Nat) : Int) ∧
     (npm_device_emu_update_buffer ⟨⟨1000, 4096, 128⟩, [(777, ⟨5, 64, 16⟩)]⟩
        (fun a => (a : Int)) 5 777 8).2.2 1063 = (1063 : Int)) := by
  have h := claim_C8_update_buffer ⟨⟨1000, 4096, 128⟩, [(777, ⟨5, 64, 16⟩)]⟩
      (fun a => (a : Int)) 5 777 8 ⟨5, 64, 16⟩ rfl (by decide)
  have hs := h.1 (by decide)
  exact ⟨hs.1, hs.2.2.1 3 (by decide), by
    have := hs.2.2.2 1063 (by decide)
    simpa using this⟩

/-- Counterexample for C8 as stated over every device: the MOCK device's
`update_buffer` with handle 1 (registered size 24) and a GROWN size 999
returns success (0, not an invalid-parameters error) and rewrites the
registration to the new pointer and size. -/
theorem claim_C8_counterexample :
    (npm_device_mock_update_buffer mockCtxA 1 100 999).1 = 0 ∧
    mapFind (npm_device_mock_update_buffer mockCtxA 1 100 999).2.buffers 1 =
      some ⟨100, 999⟩ ∧
    mapFind mockCtxA.buffers 1 = some ⟨100, 24⟩ ∧ (999 : Nat) > 24 := by
  refine ⟨by decide, by decide, by decide, by decide⟩

/-- Claim C7 (amended/corrected): for quantised weight types that the
MUL_MAT alignment switch names explicitly — i.e. every quantised type other
than Q8_K, IQ1_M, TQ1_0, TQ2_0 — `supports_op` accepts a node only if K
(`ne00`) is divisible by the type's block size (256 for k-quants and
i-quants, 32 for standard quants); and in particular Q4_K weights with
K = 255 are rejected while Q4_K weights with K = 256, FP32 contiguous
activations, are accepted.  The quantised types the switch omits fall to
its `default: alignment_ok = true` arm and are accepted at ANY K —
`claim_C7_counterexample` exhibits Q8_K, a 256-block k-quant, accepted at
K = 255 — so the claimed divisibility gate does not cover the whole
quantised domain. -/
theorem claim_C7_supports_op :
    (∀ t : npm_mul_mat_node, ggml_type_is_quantized t.src0_type = true →
       t.src0_type ≠ .q8_k → t.src0_type ≠ .iq1_m →
       t.src0_type ≠ .tq1_0 → t.src0_type ≠ .tq2_0 →
       supports_op_mul_mat t = true → t.ne00 % spec_block_size t.src0_type = 0) ∧
    supports_op_mul_mat ⟨.q4_k, .f32, true, true, 255, 255, 1, 1⟩ = false ∧
    supports_op_mul_mat ⟨.q4_k, .f32, true, true, 256, 256, 1, 1⟩ = true := by
  refine ⟨?_, by decide, by decide⟩
  intro t hq h1 h2 h3 h4 hs
  rcases t with ⟨s0, s1, c0, c1, ne00, ne10, ne0, ne1⟩
  cases s0 <;>
    simp_all [supports_op_mul_mat, ggml_type_is_quantized, spec_block_size,
      ggml_to_float_available]

/-- Witness for C7: a quantised Q8_0 node with K = 64 is accepted and the
theorem yields `64 % 32 = 0`. -/
theorem claim_C7_supports_op_witness :
    ggml_type_is_quantized
        (npm_mul_mat_node.mk .q8_0 .f32 true true 64 64 1 1).src0_type = true ∧
    supports_op_mul_mat (npm_mul_mat_node.mk .q8_0 .f32 true true 64 64 1 1) = true ∧
    (npm_mul_mat_node.mk .q8_0 .f32 true true 64 64 1 1).ne00 %
      spec_block_size (npm_mul_mat_node.mk .q8_0 .f32 true true 64 64 1 1).src0_type = 0 :=
  ⟨by decide, by decide,
   claim_C7_supports_op.1 (npm_mul_mat_node.mk .q8_0 .f32 true true 64 64 1 1)
     (by decide) (by decide) (by decide) (by decide) (by decide) (by decide)⟩

/-- Counterexample to C7 as stated: Q8_K is quantised (the in-src
`ggml_type_is_quantized` returns true for it via its `default` arm) and is
a k-quant with a 256-element super-block, yet the alignment switch has no
`case GGML_TYPE_Q8_K`, so the node falls to `default: alignment_ok = true`
and a Q8_K MUL_MAT with K = 255 — not divisible by 256 — is accepted. -/
theorem claim_C7_counterexample :
    ggml_type_is_quantized ggml_type.q8_k = true ∧
    spec_block_size ggml_type.q8_k = 256 ∧
    (255 : Nat) % 256 ≠ 0 ∧
    supports_op_mul_mat ⟨.q8_k, .f32, true, true, 255, 255, 1, 1⟩ = true := by
  refine ⟨by decide, by decide, by decide, by decide⟩

theorem extractLRU_sum (b : npm_mem_block) (bs : List npm_mem_block) :
    (extractLRU b bs).1.size + sumSizes (extractLRU b bs).2 =
      sumSizes (b :: bs) := by
  have := ((extractLRU_perm b bs).map (fun x => x.size)).sum_eq
  simpa [sumSizes] using this

theorem getElem?_mem_list {α : Type} (l : List α) (n : Nat) (a : α)
    (h : l[n]? = some a) : a ∈ l := by
  obtain ⟨hlt, rfl⟩ := List.getElem?_eq_some_iff.mp h
  exact List.getElem_mem hlt

theorem sumSizes_cons (b : npm_mem_block) (l : List npm_mem_block) :
    sumSizes (b :: l) = b.size + sumSizes l := by
  simp [sumSizes]

theorem sumSizes_append_single (l : List npm_mem_block) (b : npm_mem_block) :
    sumSizes (l ++ [b]) = sumSizes l + b.size := by
  simp [sumSizes]

theorem sumSizes_bumpFirst (l : List npm_mem_block) (handle offset stamp : Nat) :
    sumSizes (bumpFirst l handle offset stamp) = sumSizes l := by
  induction l with
  | nil => rfl
  | cons b bs ih =>
    unfold bumpFirst
    by_cases hc : b.handle = handle ∧ b.offset = offset
    · rw [if_pos hc, sumSizes_cons, sumSizes_cons]
    · rw [if_neg hc, sumSizes_cons, sumSizes_cons, ih]

theorem sumSizes_setDirty (l : List npm_mem_block) (handle offset : Nat) (d : Bool) :
    sumSizes (setDirty l handle offset d) = sumSizes l := by
  induction l with
  | nil => rfl
  | cons b bs ih =>
    unfold setDirty
    by_cases hc : b.handle = handle ∧ b.offset = offset
    · rw [if_pos hc, sumSizes_cons, sumSizes_cons]
    · rw [if_neg hc, sumSizes_cons, sumSizes_cons, ih]

theorem sumSizes_clearDirty (l : List npm_mem_block) :
    sumSizes (l.map (fun b => { b with dirty := false })) = sumSizes l := by
  induction l with
  | nil => rfl
  | cons b bs ih =>
    simp only [List.map_cons]
    rw [sumSizes_cons, sumSizes_cons, ih]

theorem evict_spec (n : Nat) : ∀ (t : npm_tier_model) (needed : Nat),
    t.blocks.length ≤ n → t.used = sumSizes t.blocks →
    (evict_lru_tier t needed).capacity = t.capacity ∧
    (evict_lru_tier t needed).used = sumSizes (evict_lru_tier t needed).blocks ∧
    ((evict_lru_tier t needed).used + needed ≤ t.capacity ∨
     (evict_lru_tier t needed).blocks = []) := by
  induction n with
  | zero =>
    intro t needed hlen hsum
    obtain ⟨cap, used, blocks⟩ := t
    have hb : blocks = [] := by
      cases blocks with
      | nil => rfl
      | cons x xs => simp at hlen
    subst hb
    unfold evict_lru_tier
    exact ⟨by trivial, by simpa using hsum, Or.inr (by trivial)⟩
  | succ n ih =>
    intro t needed hlen hsum
    obtain ⟨cap, used, blocks⟩ := t
    cases blocks with
    | nil =>
      unfold evict_lru_tier
      exact ⟨by trivial, by simpa using hsum, Or.inr (by trivial)⟩
    | cons b bs =>
      dsimp only at hsum hlen
      by_cases hfit : used + needed ≤ cap
      · unfold evict_lru_tier
        simp only [if_pos hfit]
        exact ⟨by trivial, by simpa using hsum, Or.inl (by simpa using hfit)⟩
      · have hsum2 : used - (extractLRU b bs).1.size = sumSizes (extractLRU b bs).2 := by
          have hx := extractLRU_sum b bs
          rw [sumSizes_cons] at hx hsum
          omega
        have hlen2 : (extractLRU b bs).2.length ≤ n := by
          have := extractLRU_len b bs
          simp only [List.length_cons] at hlen
          omega
        have h := ih ⟨cap, used - (extractLRU b bs).1.size, (extractLRU b bs).2⟩
          needed hlen2 hsum2
        unfold evict_lru_tier
        simp only [if_neg hfit]
        exact h

theorem tier_prepare (t : npm_tier_model) (size : Nat)
    (hsum : t.used = sumSizes t.blocks) (hsz : size ≤ t.capacity) :
    ((if t.can_fit size then t else evict_lru_tier t size).capacity = t.capacity) ∧
    ((if t.can_fit size then t else evict_lru_tier t size).used =
      sumSizes (if t.can_fit size then t else evict_lru_tier t size).blocks) ∧
    (if t.can_fit size then t else evict_lru_tier t size).used + size ≤ t.capacity := by
  by_cases hf : t.can_fit size
  · simp only [if_pos hf]
    unfold npm_tier_model.can_fit at hf
    exact ⟨by trivial, hsum, of_decide_eq_true hf⟩
  · simp only [if_neg hf]
    have h := evict_spec t.blocks.length t size le_rfl hsum
    rcases h.2.2 with hok | hempty
    · exact ⟨h.1, h.2.1, hok⟩
    · have hz : (evict_lru_tier t size).used = 0 := by
        rw [h.2.1, hempty]
        rfl
      exact ⟨h.1, h.2.1, by omega⟩

theorem foldl_preserve {σ ι : Type} (P : σ → Prop) (f : σ → ι → σ)
    (l : List ι) (s : σ) (hs : P s) (hstep : ∀ s x, x ∈ l → P s → P (f s x)) :
    P (l.foldl f s) := by
  induction l generalizing s with
  | nil => exact hs
  | cons x xs ih =>
    exact ih (f s x) (hstep s x (by simp) hs)
      (fun s2 y hy h2 => hstep s2 y (by simp [hy]) h2)

theorem capsOk_set (h : npm_memory_hierarchy) (caps : List Nat) (l2cap : Nat)
    (e : Nat) (l1 t2 : npm_tier_model)
    (hcaps : capsOk h caps l2cap) (hget : h.l1_models[e]? = some l1)
    (hcap : t2.capacity = l1.capacity) :
    ∀ i : Nat, ((h.l1_models.set e t2)[i]?).map (fun t => t.capacity) = caps[i]? := by
  intro i
  by_cases hie : e = i
  · subst hie
    have hlt : e < h.l1_models.length := (List.getElem?_eq_some_iff.mp hget).1
    rw [List.getElem?_set_self hlt]
    have hc := hcaps.1 e
    rw [hget] at hc
    rw [show (some t2).map (fun t => t.capacity) = some t2.capacity from rfl, hcap]
    rw [show (some l1).map (fun t => t.capacity) = some l1.capacity from rfl] at hc
    exact hc
  · rw [List.getElem?_set_ne hie]
    exact hcaps.1 i

theorem tiersInv_set (l : List npm_tier_model) (e : Nat) (t2 : npm_tier_model)
    (hall : ∀ t ∈ l, tierInv t) (ht : tierInv t2) :
    ∀ t ∈ l.set e t2, tierInv t := by
  intro t ht2
  rcases List.mem_or_eq_of_mem_set ht2 with hmem | rfl
  · exact hall t hmem
  · exact ht

theorem stage_to_l2_inv (h : npm_memory_hierarchy) (caps : List Nat)
    (l2cap handle offset size : Nat)
    (hcaps : capsOk h caps l2cap) (hinv : hierInv h) (hsz : size ≤ l2cap) :
    capsOk (stage_to_l2 h handle offset size) caps l2cap ∧
    hierInv (stage_to_l2 h handle offset size) := by
  unfold stage_to_l2
  cases hf : findBlock h.l2_model.blocks handle offset with
  | some b =>
    dsimp only
    refine ⟨⟨fun e => hcaps.1 e, hcaps.2⟩, fun t ht => hinv.1 t ht, ?_, ?_⟩
    · dsimp only
      rw [sumSizes_bumpFirst]
      exact hinv.2.1
    · exact hinv.2.2
  | none =>
    dsimp only
    have hl2cap : h.l2_model.capacity = l2cap := hcaps.2
    have hprep := tier_prepare h.l2_model size hinv.2.1 (by omega)
    unfold allocate_tier
    dsimp only
    refine ⟨⟨fun e => hcaps.1 e, ?_⟩, fun t ht => hinv.1 t ht, ?_, ?_⟩
    · rw [hprep.1]
      exact hcaps.2
    · dsimp only
      rw [sumSizes_append_single, hprep.2.1]
    · dsimp only
      rw [hprep.1]
      have := hprep.2.2
      omega

theorem stage_to_l1_inv (h : npm_memory_hierarchy) (caps : List Nat)
    (l2cap engine handle offset size : Nat)
    (hcaps : capsOk h caps l2cap) (hinv : hierInv h)
    (hsz : ∀ c, caps[engine]? = some c → size ≤ c) :
    capsOk (stage_to_l1 h engine handle offset size) caps l2cap ∧
    hierInv (stage_to_l1 h engine handle offset size) := by
  unfold stage_to_l1
  by_cases he : engine ≥ h.num_engines
  · rw [if_pos he]
    exact ⟨hcaps, hinv⟩
  · rw [if_neg he]
    cases hget : h.l1_models[engine]? with
    | none => exact ⟨hcaps, hinv⟩
    | some l1 =>
      dsimp only
      have hl1mem : l1 ∈ h.l1_models := getElem?_mem_list _ _ _ hget
      have hl1inv := hinv.1 l1 hl1mem
      have hszl1 : size ≤ l1.capacity := by
        apply hsz
        have hc := hcaps.1 engine
        rw [hget] at hc
        simpa using hc.symm
      cases hf : findBlock l1.blocks handle offset with
      | some b =>
        dsimp only
        refine ⟨⟨capsOk_set h caps l2cap engine l1 _ hcaps hget rfl, hcaps.2⟩,
                tiersInv_set _ _ _ hinv.1 ?_, hinv.2.1, hinv.2.2⟩
        constructor
        · dsimp only
          rw [sumSizes_bumpFirst]
          exact hl1inv.1
        · exact hl1inv.2
      | none =>
        dsimp only
        cases hf2 : findBlock h.l2_model.blocks handle offset with
        | none => exact ⟨hcaps, hinv⟩
        | some b2 =>
          dsimp only
          have hprep := tier_prepare l1 size hl1inv.1 hszl1
          unfold allocate_tier
          dsimp only
          refine ⟨⟨capsOk_set h caps l2cap engine l1 _ hcaps hget hprep.1, hcaps.2⟩,
                  tiersInv_set _ _ _ hinv.1 ?_, hinv.2.1, hinv.2.2⟩
          constructor
          · dsimp only
            rw [sumSizes_append_single, hprep.2.1]
          · dsimp only
            rw [hprep.1]
            have := hprep.2.2
            omega

theorem writeback_l1_to_l2_inv (h : npm_memory_hierarchy) (caps : List Nat)
    (l2cap engine handle offset : Nat)
    (hcaps : capsOk h caps l2cap) (hinv : hierInv h) :
    capsOk (writeback_l1_to_l2 h engine handle offset) caps l2cap ∧
    hierInv (writeback_l1_to_l2 h engine handle offset) := by
  unfold writeback_l1_to_l2
  by_cases he : engine ≥ h.num_engines
  · rw [if_pos he]
    exact ⟨hcaps, hinv⟩
  · rw [if_neg he]
    cases hget : h.l1_models[engine]? with
    | none => exact ⟨hcaps, hinv⟩
    | some l1 =>
      dsimp only
      have hl1mem : l1 ∈ h.l1_models := getElem?_mem_list _ _ _ hget
      have hl1inv := hinv.1 l1 hl1mem
      cases hf : findBlock l1.blocks handle offset with
      | none => exact ⟨hcaps, hinv⟩
      | some lb =>
        dsimp only
        by_cases hd : lb.dirty = false
        · rw [if_pos hd]
          exact ⟨hcaps, hinv⟩
        · rw [if_neg hd]
          cases hf2 : findBlock h.l2_model.blocks handle offset with
          | none => exact ⟨hcaps, hinv⟩
          | some b2 =>
            dsimp only
            refine ⟨⟨capsOk_set h caps l2cap engine l1 _ hcaps hget rfl, hcaps.2⟩,
                    tiersInv_set _ _ _ hinv.1 ?_, ?_, hinv.2.2⟩
            · exact ⟨by dsimp only; rw [sumSizes_setDirty]; exact hl1inv.1, hl1inv.2⟩
            · dsimp only
              rw [sumSizes_setDirty]
              exact hinv.2.1

theorem writeback_l2_to_ddr_inv (h : npm_memory_hierarchy) (caps : List Nat)
    (l2cap handle offset : Nat)
    (hcaps : capsOk h caps l2cap) (hinv : hierInv h) :
    capsOk (writeback_l2_to_ddr h handle offset) caps l2cap ∧
    hierInv (writeback_l2_to_ddr h handle offset) := by
  unfold writeback_l2_to_ddr
  cases hf : findBlock h.l2_model.blocks handle offset with
  | none => exact ⟨hcaps, hinv⟩
  | some b =>
    dsimp only
    by_cases hd : b.dirty = false
    · rw [if_pos hd]
      exact ⟨hcaps, hinv⟩
    · rw [if_neg hd]
      refine ⟨⟨fun e => hcaps.1 e, hcaps.2⟩, fun t ht => hinv.1 t ht, ?_, hinv.2.2⟩
      dsimp only
      rw [sumSizes_setDirty]
      exact hinv.2.1

theorem mark_dirty_inv (h : npm_memory_hierarchy) (caps : List Nat)
    (l2cap engine handle offset : Nat)
    (hcaps : capsOk h caps l2cap) (hinv : hierInv h) :
    capsOk (mark_dirty h engine handle offset) caps l2cap ∧
    hierInv (mark_dirty h engine handle offset) := by
  unfold mark_dirty
  by_cases he : engine ≥ h.num_engines
  · rw [if_pos he]
    exact ⟨hcaps, hinv⟩
  · rw [if_neg he]
    cases hget : h.l1_models[engine]? with
    | none => exact ⟨hcaps, hinv⟩
    | some l1 =>
      dsimp only
      have hl1inv := hinv.1 l1 (getElem?_mem_list _ _ _ hget)
      cases hf : findBlock l1.blocks handle offset with
      | none => exact ⟨hcaps, hinv⟩
      | some b =>
        dsimp only
        refine ⟨⟨capsOk_set h caps l2cap engine l1 _ hcaps hget rfl, hcaps.2⟩,
                tiersInv_set _ _ _ hinv.1 ?_, hinv.2.1, hinv.2.2⟩
        exact ⟨by dsimp only; rw [sumSizes_setDirty]; exact hl1inv.1, hl1inv.2⟩

theorem flush_all_inv (h : npm_memory_hierarchy) (caps : List Nat) (l2cap : Nat)
    (hcaps : capsOk h caps l2cap) (hinv : hierInv h) :
    capsOk (flush_all h) caps l2cap ∧ hierInv (flush_all h) := by
  unfold flush_all
  have hphase : ∀ (hh : npm_memory_hierarchy) (e : Nat),
      capsOk hh caps l2cap ∧ hierInv hh →
      capsOk (flush_l1_phase hh e) caps l2cap ∧ hierInv (flush_l1_phase hh e) := by
    intro hh e hP
    unfold flush_l1_phase
    cases hget : hh.l1_models[e]? with
    | none => exact hP
    | some l1 =>
      apply foldl_preserve
          (fun s => capsOk s caps l2cap ∧ hierInv s) _ _ _ hP
      intro s b _ hPs
      by_cases hd : b.dirty
      · simp only [if_pos hd]
        exact writeback_l1_to_l2_inv s caps l2cap e b.handle b.offset hPs.1 hPs.2
      · simp only [if_neg hd]
        exact hPs
  have h1 := foldl_preserve (fun s => capsOk s caps l2cap ∧ hierInv s)
      flush_l1_phase (List.range h.num_engines) h ⟨hcaps, hinv⟩
      (fun s e _ hP => hphase s e hP)
  refine ⟨⟨fun e => h1.1.1 e, h1.1.2⟩, fun t ht => h1.2.1 t ht, ?_, ?_⟩
  · rw [sumSizes_clearDirty]
    exact h1.2.2.1
  · exact h1.2.2.2

theorem hier_reset_inv (h : npm_memory_hierarchy) (caps : List Nat) (l2cap : Nat)
    (hcaps : capsOk h caps l2cap) :
    capsOk (hier_reset h) caps l2cap ∧ hierInv (hier_reset h) := by
  unfold hier_reset
  refine ⟨⟨?_, hcaps.2⟩, ?_, by simp [sumSizes], by simp⟩
  · intro e
    rw [List.getElem?_map]
    have hc := hcaps.1 e
    cases hg : h.l1_models[e]? with
    | none =>
      rw [hg] at hc
      simpa using hc
    | some l1 =>
      rw [hg] at hc
      simpa using hc
  · intro t ht
    rcases List.mem_map.mp ht with ⟨l1, _, rfl⟩
    exact ⟨by simp [sumSizes], by simp⟩

theorem hier_apply_inv (caps : List Nat) (l2cap : Nat)
    (h : npm_memory_hierarchy) (op : npm_hier_op)
    (hcaps : capsOk h caps l2cap) (hinv : hierInv h)
    (hop : opSizeOk caps l2cap op) :
    capsOk (hier_apply h op) caps l2cap ∧ hierInv (hier_apply h op) := by
  cases op with
  | stage_l2 handle offset size =>
    exact stage_to_l2_inv h caps l2cap handle offset size hcaps hinv hop
  | stage_l1 engine handle offset size =>
    exact stage_to_l1_inv h caps l2cap engine handle offset size hcaps hinv hop
  | writeback_l1 engine handle offset =>
    exact writeback_l1_to_l2_inv h caps l2cap engine handle offset hcaps hinv
  | writeback_l2 handle offset =>
    exact writeback_l2_to_ddr_inv h caps l2cap handle offset hcaps hinv
  | mark engine handle offset =>
    exact mark_dirty_inv h caps l2cap engine handle offset hcaps hinv
  | flush => exact flush_all_inv h caps l2cap hcaps hinv
  | reset => exact hier_reset_inv h caps l2cap hcaps

/-- Claim C9 (amended): starting from a fresh hierarchy, after ANY sequence
of stage/writeback/mark/flush/reset operations in which every staged block
fits its target tier's capacity on its own, every tier satisfies
`sum_of_sizes(live_blocks) ≤ capacity`.  The qualification is necessary: a
single staged block larger than the tier overflows it
(`claim_C9_counterexample`). -/
theorem claim_C9_tier_occupancy (num_engines l1_size l2_size : Nat)
    (ops : List npm_hier_op)
    (hops : ∀ op ∈ ops, opSizeOk (List.replicate num_engines l1_size) l2_size op) :
    (∀ t ∈ (hier_exec (mkHierarchy num_engines l1_size l2_size) ops).l1_models,
        sumSizes t.blocks ≤ t.capacity) ∧
    sumSizes (hier_exec (mkHierarchy num_engines l1_size l2_size) ops).l2_model.blocks ≤
      (hier_exec (mkHierarchy num_engines l1_size l2_size) ops).l2_model.capacity := by
  have hinit : capsOk (mkHierarchy num_engines l1_size l2_size)
      (List.replicate num_engines l1_size) l2_size ∧
      hierInv (mkHierarchy num_engines l1_size l2_size) := by
    refine ⟨⟨?_, rfl⟩, ?_, rfl, by simp [mkHierarchy]⟩
    · intro e
      unfold mkHierarchy
      by_cases he : e < num_engines
      · simp [List.getElem?_replicate, he]
      · simp [List.getElem?_replicate, he]
    · intro t ht
      unfold mkHierarchy at ht
      have := List.eq_of_mem_replicate ht
      subst this
      exact ⟨rfl, by simp⟩
  have hmain := foldl_preserve
      (fun s => capsOk s (List.replicate num_engines l1_size) l2_size ∧ hierInv s)
      hier_apply ops (mkHierarchy num_engines l1_size l2_size) hinit
      (fun s op hop hP =>
        hier_apply_inv (List.replicate num_engines l1_size) l2_size s op
          hP.1 hP.2 (hops op hop))
  unfold hier_exec
  refine ⟨?_, ?_⟩
  · intro t ht
    obtain ⟨h1, h2⟩ := hmain.2.1 t ht
    omega
  · obtain ⟨h1, h2⟩ := hmain.2.2
    omega

/-- Counterexample for C9 as stated: staging a single 32-byte block into a
16-byte L2 leaves the tier holding 32 > 16 bytes (eviction empties the tier
and the bump allocator then allocates past the capacity). -/
theorem claim_C9_counterexample :
    sumSizes ((hier_exec (mkHierarchy 1 16 16) [.stage_l2 1 0 32]).l2_model.blocks) = 32 ∧
    (hier_exec (mkHierarchy 1 16 16) [.stage_l2 1 0 32]).l2_model.capacity = 16 := by
  constructor <;>
    simp [hier_exec, hier_apply, stage_to_l2, mkHierarchy, findBlock,
      npm_tier_model.can_fit, evict_lru_tier, allocate_tier, sumSizes]

theorem register_sequence_spec (reqs : List npm_emu_register_buffer_req) :
    ∀ s : npm_emu_server_state,
      s.next_handle + reqs.length ≤ size_t_mod →
      ((register_sequence s reqs).2.map (fun r => r.status) =
         List.replicate reqs.length NPM_EMU_STATUS_OK) ∧
      ((register_sequence s reqs).2.map (fun r => r.handle) =
         List.range' s.next_handle reqs.length) := by
  induction reqs with
  | nil => intro s _; exact ⟨rfl, rfl⟩
  | cons r rest ih =>
    intro s hle
    simp only [List.length_cons] at hle
    by_cases hm : s.next_handle + 1 < size_t_mod
    · have hmod : (s.next_handle + 1) % size_t_mod = s.next_handle + 1 :=
        Nat.mod_eq_of_lt hm
      have hrec := ih { s with
          next_handle := (s.next_handle + 1) % size_t_mod,
          buffers := mapInsert s.buffers s.next_handle
            ⟨r.shm_offset, r.size, r.flags⟩ }
        (by dsimp only; rw [hmod]; omega)
      dsimp only at hrec
      rw [hmod] at hrec
      simp only [register_sequence, handle_register_buffer, List.map_cons,
        List.length_cons, List.replicate_succ, List.range'_succ]
      rw [hmod]
      exact ⟨by rw [hrec.1], by rw [hrec.2]⟩
    · have hzero : rest.length = 0 := by omega
      have hrest : rest = [] := List.eq_nil_of_length_eq_zero hzero
      subst hrest
      exact ⟨rfl, rfl⟩

/-- Claim C10 (confirmed): `handle_register_buffer` performs no validation —
it replies OK to every request regardless of its contents — and assigns
`handle = next_handle++`; starting from a fresh server (`next_handle = 1`,
as set by `npm_emu_server_create`) the handles returned for a request
sequence are `1, 2, 3, …`: strictly increasing and never 0, as long as the
`uint64_t` counter does not wrap. -/
theorem claim_C10_register_handles (s : npm_emu_server_state)
    (reqs : List npm_emu_register_buffer_req)
    (hfresh : s.next_handle = 1)
    (hnw : 1 + reqs.length ≤ size_t_mod) :
    ((register_sequence s reqs).2.map (fun r => r.status) =
       List.replicate reqs.length NPM_EMU_STATUS_OK) ∧
    ((register_sequence s reqs).2.map (fun r => r.handle) =
       List.range' 1 reqs.length) ∧
    ((register_sequence s reqs).2.map (fun r => r.handle)).Pairwise (· < ·) ∧
    ∀ rsp ∈ (register_sequence s reqs).2, rsp.handle ≠ 0 := by
  have h := register_sequence_spec reqs s (by rw [hfresh]; exact hnw)
  rw [hfresh] at h
  refine ⟨h.1, h.2, ?_, ?_⟩
  · rw [h.2]; exact List.pairwise_lt_range' ..
  · intro rsp hmem
    have hx : rsp.handle ∈
        (register_sequence s reqs).2.map (fun r => r.handle) :=
      List.mem_map_of_mem _ hmem
    rw [h.2] at hx
    have := List.mem_range'_1.mp hx
    omega

/-- Witness for C10: three concrete registrations (including a zero-sized
one and one far past the SHM region, neither rejected) from the fresh
server yield statuses OK, OK, OK and handles 1, 2, 3. -/
theorem claim_C10_register_handles_witness :
    (register_sequence baseServer
        [⟨0, 64, 0⟩, ⟨64, 0, 0⟩, ⟨99999999, 7, 5⟩]).2.map
        (fun r => r.handle) = [1, 2, 3] ∧
    (register_sequence baseServer
        [⟨0, 64, 0⟩, ⟨64, 0, 0⟩, ⟨99999999, 7, 5⟩]).2.map
        (fun r => r.status) = [0, 0, 0] := by
  have h := claim_C10_register_handles baseServer
    [⟨0, 64, 0⟩, ⟨64, 0, 0⟩, ⟨99999999, 7, 5⟩] rfl
    (by norm_num [size_t_mod])
  refine ⟨?_, ?_⟩
  · rw [h.2.1]; rfl
  · rw [h.1]; rfl

/-! ## Claim C3: dispatch-loop error handling -/

/-- Claim C3 (amended): in the per-client dispatch loop, a header with a bad
magic or major version makes the server close the connection — no reply for
that message and nothing further is served; a message with a VALID header
but an unrecognized command, however, only logs and `break`s out of the
dispatch `switch`, not the message loop: no reply is sent for it but the
connection stays open and the remaining requests are served as if the
message had not been there. -/
theorem claim_C3_dispatch_errors (rawCycles : npm_dma_type → Nat → Nat)
    (shm_lookup : Nat → Option Nat) (ts : Nat)
    (s : npm_emu_server_state) (m : npm_emu_msg) (rest : List npm_emu_msg) :
    (npm_emu_header_validate m.magic m.version_major ≠ 0 →
       serve_client rawCycles shm_lookup ts s (m :: rest) = []) ∧
    (npm_emu_header_validate m.magic m.version_major = 0 →
       ∀ c, m.payload = .unknown c →
       serve_client rawCycles shm_lookup ts s (m :: rest) =
         serve_client rawCycles shm_lookup ts s rest) := by
  constructor
  · intro hv
    unfold serve_client
    rw [if_pos hv]
  · intro hv c hp
    unfold serve_client
    rw [if_neg (by simp [hv]), hp]
    dsimp only
    rw [serve_client.eq_def]

/-- Witness for C3: a message with a wrong magic kills the session even
with more requests queued, while a valid-header message with the
unhandled command byte `0x10` (`NPM_EMU_CMD_GET_CONFIG`) leaves the rest
of the session to proceed. -/
theorem claim_C3_dispatch_errors_witness :
    serve_client rawCyclesCfg (fun _ => none) 0 baseServer
      [⟨0xDEAD, 1, 7, .sync⟩, ⟨NPM_EMU_MAGIC, 1, 8, .sync⟩] = [] ∧
    serve_client rawCyclesCfg (fun _ => none) 0 baseServer
      [⟨NPM_EMU_MAGIC, 1, 7, .unknown 0x10⟩, ⟨NPM_EMU_MAGIC, 1, 8, .sync⟩] =
      serve_client rawCyclesCfg (fun _ => none) 0 baseServer
        [⟨NPM_EMU_MAGIC, 1, 8, .sync⟩] := by
  constructor
  · exact (claim_C3_dispatch_errors rawCyclesCfg (fun _ => none) 0 baseServer
      ⟨0xDEAD, 1, 7, .sync⟩ [⟨NPM_EMU_MAGIC, 1, 8, .sync⟩]).1 (by decide)
  · exact (claim_C3_dispatch_errors rawCyclesCfg (fun _ => none) 0 baseServer
      ⟨NPM_EMU_MAGIC, 1, 7, .unknown 0x10⟩
      [⟨NPM_EMU_MAGIC, 1, 8, .sync⟩]).2 (by decide) 0x10 rfl

/-- Counterexample to C3 as stated: the spec says an unknown command closes
the connection like an invalid header does, but after the unrecognized
command byte `0x10` the following SYNC request is still served and answered
OK — the session was not closed (and the unknown command itself got no
error reply). -/
theorem claim_C3_counterexample :
    serve_client rawCyclesCfg (fun _ => none) 0 baseServer
      [⟨NPM_EMU_MAGIC, 1, 7, .unknown 0x10⟩, ⟨NPM_EMU_MAGIC, 1, 8, .sync⟩] =
      [⟨8, NPM_EMU_STATUS_OK, []⟩] := by
  rfl

/-- Claim C2 (amended): the EMULATOR SERVER's `resolve_handle` behaves as
claimed — a registered handle with offset below the registered size yields
the pointer `shm_base + shm_offset + offset` into the buffer's slot, an
offset at or past the size yields null, an unregistered handle yields null,
and `handle_matmul` on a request whose A, B or C operand fails to resolve
replies INVALID_HANDLE with the server state untouched (nothing executed).
The MOCK device rejects unregistered handles, but resolves a registered
handle at EVERY offset to `ptr + offset` — it has no bounds check, so the
out-of-range half of the claim fails for it (see the counterexample). -/
theorem claim_C2_resolve_bounds (s : npm_emu_server_state) (h o : Nat)
    (buf : npm_emu_buffer) (hfind : mapFind s.buffers h = some buf) :
    (o < buf.size →
       resolve_handle s h o = some (s.shm_base + buf.shm_offset + o)) ∧
    (buf.size ≤ o → resolve_handle s h o = none) ∧
    (∀ h2 o2, mapFind s.buffers h2 = none → resolve_handle s h2 o2 = none) ∧
    (∀ (rawCycles : npm_dma_type → Nat → Nat) (req : npm_emu_matmul_req),
       (resolve_handle s req.a_handle req.a_offset = none ∨
        resolve_handle s req.b_handle req.b_offset = none ∨
        resolve_handle s req.c_handle req.c_offset = none) →
       (handle_matmul rawCycles s req).2.status =
         NPM_EMU_STATUS_INVALID_HANDLE ∧
       (handle_matmul rawCycles s req).1 = s) ∧
    (∀ (ctx : npm_device_mock_context) (h2 o2 : Nat),
       mapFind ctx.buffers h2 = none →
       npm_device_mock_resolve_handle ctx h2 o2 = none) ∧
    (∀ (ctx : npm_device_mock_context) (h2 o2 : Nat)
       (e : npm_buffer_entry), mapFind ctx.buffers h2 = some e →
       npm_device_mock_resolve_handle ctx h2 o2 = some (e.ptr + o2)) := by
  refine ⟨?_, ?_, ?_, ?_, ?_, ?_⟩
  · intro hlt
    unfold resolve_handle
    rw [hfind]
    dsimp only
    rw [if_neg (by omega)]
  · intro hge
    unfold resolve_handle
    rw [hfind]
    dsimp only
    rw [if_pos (by omega)]
  · intro h2 o2 hnone
    unfold resolve_handle
    rw [hnone]
  · intro rawCycles req hro
    unfold handle_matmul
    rcases hro with hA | hB | hC
    · rw [hA]
      exact ⟨rfl, rfl⟩
    · cases hA2 : resolve_handle s req.a_handle req.a_offset with
      | none => exact ⟨rfl, rfl⟩
      | some pa => rw [hB]; exact ⟨rfl, rfl⟩
    · cases hA2 : resolve_handle s req.a_handle req.a_offset with
      | none => exact ⟨rfl, rfl⟩
      | some pa =>
        cases hB2 : resolve_handle s req.b_handle req.b_offset with
        | none => exact ⟨rfl, rfl⟩
        | some pb => rw [hC]; exact ⟨rfl, rfl⟩
  · intro ctx h2 o2 hnone
    unfold npm_device_mock_resolve_handle
    rw [hnone]
  · intro ctx h2 o2 e he
    unfold npm_device_mock_resolve_handle
    rw [he]

/-- Witness for C2 on the server side: on `serverC2` (handle 1, size 24,
SHM base 4096) offset 3 resolves to 4099, offset 24 resolves to null,
unregistered handle 9 resolves to null, and a matmul naming handle 9
replies INVALID_HANDLE (= 3). -/
theorem claim_C2_resolve_bounds_witness :
    resolve_handle serverC2 1 3 = some 4099 ∧
    resolve_handle serverC2 1 24 = none ∧
    resolve_handle serverC2 9 0 = none ∧
    (handle_matmul rawCyclesCfg serverC2
       ⟨9, 0, 1, 0, 1, 0, 2, 2, 2, 2, 2, 2, 0, 0, 0⟩).2.status = 3 := by
  have h1 := claim_C2_resolve_bounds serverC2 1 3 ⟨0, 24, 0⟩ rfl
  have h2 := claim_C2_resolve_bounds serverC2 1 24 ⟨0, 24, 0⟩ rfl
  refine ⟨h1.1 (by decide), h2.2.1 (by decide), h1.2.2.1 9 0 rfl, ?_⟩
  exact (h1.2.2.2.1 rawCyclesCfg ⟨9, 0, 1, 0, 1, 0, 2, 2, 2, 2, 2, 2, 0, 0, 0⟩
    (Or.inl (h1.2.2.1 9 0 rfl))).1

/-- Counterexample to C2 as stated: the MOCK device's `resolve_handle` has
no bounds check.  Handle 1 is registered with size 24 (Scenario A), yet
offset 1000 resolves to the pointer `ptr + 1000 = 1100`, far outside the
buffer, instead of the claimed missing result. -/
theorem claim_C2_counterexample :
    mapFind mockCtxA.buffers 1 = some ⟨100, 24⟩ ∧
    24 ≤ 1000 ∧
    npm_device_mock_resolve_handle mockCtxA 1 1000 = some 1100 := by
  exact ⟨rfl, by norm_num, rfl⟩

/-! ## Claim C4: tiled matmul DMA/cycle lower bounds -/

theorem sum_map_one {α : Type} (l : List α) :
    (l.map (fun _ => (1 : Nat))).sum = l.length := by
  induction l with
  | nil => rfl
  | cons x xs ih =>
    simp only [List.map_cons, List.sum_cons, List.length_cons, ih]
    omega

theorem sum_map_min_scale (c T bound : Nat) (l : List Nat) :
    (l.map (fun i => c * min T (bound - i * T))).sum =
      c * (l.map (fun i => min T (bound - i * T))).sum := by
  induction l with
  | nil => simp
  | cons x xs ih =>
    simp only [List.map_cons, List.sum_cons, ih, Nat.mul_add]

/-- The per-tile actual sizes `min T (total - off)` of the loop
`for (off = 0; off < total; off += T)` sum to `total`. -/
theorem sum_tile_actuals (T : Nat) (hT : 0 < T) : ∀ total : Nat,
    ((tileIdx total T).map (fun i => min T (total - i * T))).sum = total := by
  intro total
  induction total using Nat.strong_induction_on with
  | _ total ih =>
    rcases Nat.lt_or_ge total 1 with h0 | h1
    · have ht0 : total = 0 := by omega
      subst ht0
      unfold tileIdx
      rw [Nat.div_eq_of_lt (by omega)]
      rfl
    · rcases Nat.lt_or_ge total (T + 1) with hle | hgt
      · have hcount : (total + T - 1) / T = 1 :=
          Nat.div_eq_of_lt_le (by omega) (by omega)
        unfold tileIdx
        rw [hcount]
        show (List.map _ [0]).sum = total
        simp only [List.map_cons, List.map_nil, List.sum_cons, List.sum_nil]
        omega
      · have hT_lt : T < total := by omega
        have hsplit : total + T - 1 = ((total - T) + T - 1) + T := by omega
        have hcount : (total + T - 1) / T = ((total - T) + T - 1) / T + 1 := by
          rw [hsplit, Nat.add_div_right _ hT]
        unfold tileIdx
        rw [hcount, List.range_succ_eq_map]
        rw [List.map_cons, List.map_map, List.sum_cons]
        have hhead : min T (total - 0 * T) = T := by
          simp only [Nat.zero_mul, Nat.sub_zero]
          exact min_eq_left (le_of_lt hT_lt)
        rw [hhead]
        have hmap : (List.range (((total - T) + T - 1) / T)).map
            ((fun i => min T (total - i * T)) ∘ Nat.succ) =
            (List.range (((total - T) + T - 1) / T)).map
            (fun i => min T ((total - T) - i * T)) := by
          apply List.map_congr_left
          intro a _
          simp only [Function.comp]
          congr 1
          have hsm : Nat.succ a * T = a * T + T := Nat.succ_mul a T
          omega
        rw [hmap]
        have hrec := ih (total - T) (by omega)
        unfold tileIdx at hrec
        rw [hrec]
        omega

/-- Folding a step that grows a natural measure by at least `g x` per item
grows it by at least the sum over the list. -/
theorem foldl_nat_lb {σ ι : Type} (μ : σ → Nat) (g : ι → Nat)
    (f : σ → ι → σ) :
    ∀ (l : List ι) (s : σ),
      (∀ (s2 : σ) (x : ι), x ∈ l → μ s2 + g x ≤ μ (f s2 x)) →
      μ s + (l.map g).sum ≤ μ (l.foldl f s) := by
  intro l
  induction l with
  | nil => intro s _; simp
  | cons x xs ih =>
    intro s h
    simp only [List.foldl_cons, List.map_cons, List.sum_cons]
    have h1 := h s x (by simp)
    have h2 := ih (f s x) (fun s2 y hy => h s2 y (by simp [hy]))
    omega

/-- Every DMA transfer costs at least one cycle: the clamp in
`calculate_cycles`. -/
theorem calc_cycles_ge_one (rawCycles : npm_dma_type → Nat → Nat)
    (t : npm_dma_type) (b : Nat) : 1 ≤ calculate_cycles rawCycles t b := by
  unfold calculate_cycles
  dsimp only
  split_ifs <;> omega

theorem tiled_k_step_bytes (rawCycles : npm_dma_type → Nat → Nat)
    (T fp32_macs : Nat) (timing : Bool) (req : npm_emu_matmul_req)
    (im inn : Nat) (st : npm_memory_hierarchy × npm_dma_model_state)
    (ik : Nat) :
    st.2.total_bytes ≤
      (tiled_k_step rawCycles T fp32_macs timing req im inn st ik).2.total_bytes := by
  unfold tiled_k_step
  dsimp only
  split_ifs <;>
    simp only [dma_transfer, advance_cycles] <;> omega

theorem tiled_k_step_cycle (rawCycles : npm_dma_type → Nat → Nat)
    (T fp32_macs : Nat) (timing : Bool) (req : npm_emu_matmul_req)
    (im inn : Nat) (st : npm_memory_hierarchy × npm_dma_model_state)
    (ik : Nat) :
    st.2.current_cycle ≤
      (tiled_k_step rawCycles T fp32_macs timing req im inn st ik).2.current_cycle := by
  unfold tiled_k_step
  dsimp only
  split_ifs <;>
    simp only [dma_transfer, advance_cycles] <;>
    simp only [Nat.add_assoc] <;>
    exact Nat.le_add_right _ _

/-- Each (m_tile, n_tile) iteration moves at least the two C-writeback
transfers' worth of bytes. -/
theorem tiled_mn_step_bytes (rawCycles : npm_dma_type → Nat → Nat)
    (T fp32_macs : Nat) (timing : Bool) (req : npm_emu_matmul_req)
    (im : Nat) (st : npm_memory_hierarchy × npm_dma_model_state)
    (inn : Nat) :
    st.2.total_bytes +
      2 * (min T (req.M - im * T) * min T (req.N - inn * T) * sizeofFloat) ≤
      (tiled_mn_step rawCycles T fp32_macs timing req im st inn).2.total_bytes := by
  unfold tiled_mn_step
  have hk := foldl_nat_lb (fun st2 => st2.2.total_bytes) (fun _ => 0)
    (tiled_k_step rawCycles T fp32_macs timing req im inn)
    (tileIdx req.K T) st
    (fun s2 x _ => by
      simpa using tiled_k_step_bytes rawCycles T fp32_macs timing req im inn s2 x)
  simp only [List.map_const, List.sum_replicate, smul_eq_mul, Nat.mul_zero,
    Nat.add_zero] at hk
  try dsimp only at hk
  simp only [dma_transfer]
  try dsimp only
  omega

/-- Each (m_tile, n_tile) iteration advances the DMA clock. -/
theorem tiled_mn_step_cycle (rawCycles : npm_dma_type → Nat → Nat)
    (T fp32_macs : Nat) (timing : Bool) (req : npm_emu_matmul_req)
    (im : Nat) (st : npm_memory_hierarchy × npm_dma_model_state)
    (inn : Nat) :
    st.2.current_cycle + 1 ≤
      (tiled_mn_step rawCycles T fp32_macs timing req im st inn).2.current_cycle := by
  unfold tiled_mn_step
  have hk := foldl_nat_lb (fun st2 => st2.2.current_cycle) (fun _ => 0)
    (tiled_k_step rawCycles T fp32_macs timing req im inn)
    (tileIdx req.K T) st
    (fun s2 x _ => by
      simpa using tiled_k_step_cycle rawCycles T fp32_macs timing req im inn s2 x)
  simp only [List.map_const, List.sum_replicate, smul_eq_mul, Nat.mul_zero,
    Nat.add_zero] at hk
  try dsimp only at hk
  have hc1 := calc_cycles_ge_one rawCycles .l1_to_l2
    (min T (req.M - im * T) * min T (req.N - inn * T) * sizeofFloat)
  have hc2 := calc_cycles_ge_one rawCycles .l2_to_ddr
    (min T (req.M - im * T) * min T (req.N - inn * T) * sizeofFloat)
  simp only [dma_transfer]
  try dsimp only
  omega

/-- The tiled loop nest moves at least `2·sizeof(float)·N·M` bytes (the C
writebacks alone) and advances the DMA clock by at least one cycle. -/
theorem tiled_matmul_bounds (rawCycles : npm_dma_type → Nat → Nat)
    (T fp32_macs : Nat) (timing : Bool) (req : npm_emu_matmul_req)
    (st0 : npm_memory_hierarchy × npm_dma_model_state)
    (hT : 0 < T) (hM : 1 ≤ req.M) (hN : 1 ≤ req.N) :
    st0.2.total_bytes + 2 * sizeofFloat * req.N * req.M ≤
      (tiled_matmul rawCycles T fp32_macs timing req st0).2.total_bytes ∧
    st0.2.current_cycle + 1 ≤
      (tiled_matmul rawCycles T fp32_macs timing req st0).2.current_cycle := by
  constructor
  · unfold tiled_matmul
    have houter := foldl_nat_lb (fun st => st.2.total_bytes)
      (fun im => 2 * sizeofFloat * req.N * min T (req.M - im * T))
      (fun stM im => (tileIdx req.N T).foldl
        (tiled_mn_step rawCycles T fp32_macs timing req im) stM)
      (tileIdx req.M T) st0
      (fun s2 im _ => by
        have hin := foldl_nat_lb (fun st => st.2.total_bytes)
          (fun inn => 2 * sizeofFloat * min T (req.M - im * T) *
            min T (req.N - inn * T))
          (tiled_mn_step rawCycles T fp32_macs timing req im)
          (tileIdx req.N T) s2
          (fun s3 inn _ => by
            try dsimp only
            have hstep := tiled_mn_step_bytes rawCycles T fp32_macs timing
              req im s3 inn
            have he : 2 * (min T (req.M - im * T) * min T (req.N - inn * T) *
                sizeofFloat) =
                2 * sizeofFloat * min T (req.M - im * T) *
                  min T (req.N - inn * T) := by ring
            omega)
        try dsimp only at hin
        rw [sum_map_min_scale (2 * sizeofFloat * min T (req.M - im * T)) T
          req.N (tileIdx req.N T), sum_tile_actuals T hT req.N] at hin
        have he2 : 2 * sizeofFloat * min T (req.M - im * T) * req.N =
            2 * sizeofFloat * req.N * min T (req.M - im * T) := by ring
        try dsimp only
        omega)
    try dsimp only at houter
    rw [sum_map_min_scale (2 * sizeofFloat * req.N) T req.M
      (tileIdx req.M T), sum_tile_actuals T hT req.M] at houter
    exact houter
  · unfold tiled_matmul
    have hlenN : 1 ≤ (tileIdx req.N T).length := by
      unfold tileIdx
      rw [List.length_range]
      exact (Nat.one_le_div_iff hT).mpr (by omega)
    have hlenM : 1 ≤ (tileIdx req.M T).length := by
      unfold tileIdx
      rw [List.length_range]
      exact (Nat.one_le_div_iff hT).mpr (by omega)
    have houter := foldl_nat_lb (fun st => st.2.current_cycle)
      (fun _ => 1)
      (fun stM im => (tileIdx req.N T).foldl
        (tiled_mn_step rawCycles T fp32_macs timing req im) stM)
      (tileIdx req.M T) st0
      (fun s2 im _ => by
        have hin := foldl_nat_lb (fun st => st.2.current_cycle)
          (fun _ => 1)
          (tiled_mn_step rawCycles T fp32_macs timing req im)
          (tileIdx req.N T) s2
          (fun s3 inn _ =>
            tiled_mn_step_cycle rawCycles T fp32_macs timing req im s3 inn)
        try dsimp only at hin ⊢
        rw [sum_map_one] at hin
        omega)
    try dsimp only at houter
    rw [sum_map_one] at houter
    omega

/-- Claim C4 (amended/corrected): for a matmul completed by the server in
tiled mode (all three handles resolve, M ≥ 1, N ≥ 1) the reply is OK and
`dma_bytes ≥ M·N·sizeof(float)` — the C-writeback DMAs alone guarantee it;
the DMA clock likewise always advances, but the reply's `cycles` field is
`current_cycle` ONLY when timing is enabled: with timing disabled the
server replies `cycles = 0`, so the claimed unconditional `cycles ≥ 1`
fails (see the counterexample). -/
theorem claim_C4_tiled_dma (rawCycles : npm_dma_type → Nat → Nat)
    (s : npm_emu_server_state) (req : npm_emu_matmul_req)
    (htile : s.tiling_enabled = true)
    (hra : (resolve_handle s req.a_handle req.a_offset).isSome = true)
    (hrb : (resolve_handle s req.b_handle req.b_offset).isSome = true)
    (hrc : (resolve_handle s req.c_handle req.c_offset).isSome = true)
    (hM : 1 ≤ req.M) (hN : 1 ≤ req.N) :
    (handle_matmul rawCycles s req).2.status = NPM_EMU_STATUS_OK ∧
    req.M * req.N * sizeofFloat ≤ (handle_matmul rawCycles s req).2.dma_bytes ∧
    (s.timing_enabled = true → 1 ≤ (handle_matmul rawCycles s req).2.cycles) ∧
    (s.timing_enabled = false → (handle_matmul rawCycles s req).2.cycles = 0) := by
  obtain ⟨pa, hpa⟩ := Option.isSome_iff_exists.mp hra
  obtain ⟨pb, hpb⟩ := Option.isSome_iff_exists.mp hrb
  obtain ⟨pc, hpc⟩ := Option.isSome_iff_exists.mp hrc
  have hTpos : 0 < calculate_tile_size s.l1_size := by
    rw [calculate_tile_size_eq_spec]
    unfold spec_tile_size
    exact lt_of_lt_of_le (by norm_num) (le_max_left _ _)
  unfold handle_matmul
  rw [hpa, hpb, hpc]
  simp only [htile, reduceIte]
  refine ⟨by trivial, ?_, ?_, ?_⟩
  · have hb2 := (tiled_matmul_bounds rawCycles (calculate_tile_size s.l1_size)
      (sku_fp32_macs s.sku) s.timing_enabled req
      (hier_reset s.mem_hierarchy, dma_reset_stats s.dma_model)
      hTpos hM hN).1
    try dsimp only at hb2 ⊢
    have h0 : (dma_reset_stats s.dma_model).total_bytes = 0 := rfl
    rw [h0] at hb2
    have hring : 2 * sizeofFloat * req.N * req.M =
        2 * (req.M * req.N * sizeofFloat) := by ring
    omega
  · intro htm
    rw [htm]
    simp only [reduceIte]
    have hb2 := (tiled_matmul_bounds rawCycles (calculate_tile_size s.l1_size)
      (sku_fp32_macs s.sku) true req
      (hier_reset s.mem_hierarchy, dma_reset_stats s.dma_model)
      hTpos hM hN).2
    try dsimp only at hb2 ⊢
    have h0 : (dma_reset_stats s.dma_model).current_cycle = 0 := rfl
    rw [h0] at hb2
    omega
  · intro htm
    rw [htm]
    rfl

/-- Witness for C4: on `serverC4` (tiled, timing on) the 2x2x2 request is
answered OK with `dma_bytes ≥ 2·2·4 = 16` and `cycles ≥ 1`; with timing
disabled the same request reports `cycles = 0`. -/
theorem claim_C4_tiled_dma_witness :
    (handle_matmul rawCyclesCfg serverC4 reqC4).2.status = 0 ∧
    16 ≤ (handle_matmul rawCyclesCfg serverC4 reqC4).2.dma_bytes ∧
    1 ≤ (handle_matmul rawCyclesCfg serverC4 reqC4).2.cycles ∧
    (handle_matmul rawCyclesCfg serverC4off reqC4).2.cycles = 0 := by
  have h1 := claim_C4_tiled_dma rawCyclesCfg serverC4 reqC4 rfl
    (by decide) (by decide) (by decide) (by decide) (by decide)
  have h2 := claim_C4_tiled_dma rawCyclesCfg serverC4off reqC4 rfl
    (by decide) (by decide) (by decide) (by decide) (by decide)
  exact ⟨h1.1, h1.2.1, h1.2.2.1 rfl, h2.2.2.2 rfl⟩

/-- Counterexample to C4 as stated: a tiled matmul completed with status OK
whose reply carries `cycles = 0` — the server only copies
`get_current_cycle()` into the reply when timing is enabled and otherwise
sends 0, so `cycles ≥ 1` does not hold for every completed tiled matmul. -/
theorem claim_C4_counterexample :
    (handle_matmul rawCyclesCfg serverC4off reqC4).2.status =
      NPM_EMU_STATUS_OK ∧
    (handle_matmul rawCyclesCfg serverC4off reqC4).2.cycles = 0 := by
  constructor <;> rfl

/-- Witness for C9: a concrete six-operation run (stage into L2, stage into
L1, write back, flush, stage again, reset) on a 1-engine 16/16-byte
hierarchy in which every staged block fits its tier; both occupancy bounds
hold at the end. -/
theorem claim_C9_tier_occupancy_witness :
    (∀ t ∈ (hier_exec (mkHierarchy 1 16 16)
        [.stage_l2 1 0 8, .stage_l1 0 1 0 8, .writeback_l1 0 1 0, .flush,
         .stage_l2 2 0 12, .reset]).l1_models,
        sumSizes t.blocks ≤ t.capacity) ∧
    sumSizes (hier_exec (mkHierarchy 1 16 16)
        [.stage_l2 1 0 8, .stage_l1 0 1 0 8, .writeback_l1 0 1 0, .flush,
         .stage_l2 2 0 12, .reset]).l2_model.blocks ≤
      (hier_exec (mkHierarchy 1 16 16)
        [.stage_l2 1 0 8, .stage_l1 0 1 0 8, .writeback_l1 0 1 0, .flush,
         .stage_l2 2 0 12, .reset]).l2_model.capacity := by
  exact claim_C9_tier_occupancy 1 16 16
    [.stage_l2 1 0 8, .stage_l1 0 1 0 8, .writeback_l1 0 1 0, .flush,
     .stage_l2 2 0 12, .reset]
    (by
      intro op hop
      fin_cases hop <;> simp only [opSizeOk] <;> trivial)

end NPM
